import Mathlib

/-!
Verification development for the streaming alert-correlation engine
(browser-side correlator: dedup worker, episode cluster worker, situation
builder/scorer worker, and the k8s event threshold engine).

The definitions below are shallow embeddings of the JavaScript/TypeScript
source.  JS `Map`s are modelled as insertion-ordered association lists,
epoch-millisecond timestamps as `Nat` (all inputs are non-negative; every
JS subtraction that could go negative is only ever used in a comparison
whose outcome agrees with truncated `Nat` subtraction, as noted locally),
and floating-point score arithmetic as exact arithmetic over `ℚ`/`ℝ`.
-/

namespace AnomalyDetection

/-! ### Association lists (JS `Map` with insertion order) -/

def alFind {β : Type} : List (String × β) → String → Option β
  | [], _ => none
  | p :: rest, k => if p.1 = k then some p.2 else alFind rest k

/-- `map.set(k, v)` : replace in place, or append a new entry. -/
def alSet {β : Type} : List (String × β) → String → β → List (String × β)
  | [], k, v => [(k, v)]
  | p :: rest, k, v => if p.1 = k then (k, v) :: rest else p :: alSet rest k v

/-- `map.get(k).push(v)` with creation of the list on first use. -/
def alPush {β : Type} : List (String × List β) → String → β → List (String × List β)
  | [], k, v => [(k, [v])]
  | p :: rest, k, v => if p.1 = k then (p.1, p.2 ++ [v]) :: rest else p :: alPush rest k v

/-! ### JS string truthiness helpers (`a || b` falls through on `undefined` and `""`) -/

def jsOrStr (a : Option String) (b : String) : String :=
  match a with
  | some s => if s = "" then b else s
  | none => b

def jsOrOpt (a b : Option String) : Option String :=
  match a with
  | some s => if s = "" then b else some s
  | none => b

/-- JS template-literal rendering: `undefined` prints as `"undefined"`. -/
def jsRender (a : Option String) : String :=
  match a with
  | some s => s
  | none => "undefined"

def truthy (a : Option String) : Bool :=
  match a with
  | some s => s ≠ ""
  | none => false

/-! ### Alerts -/

inductive Status where
  | firing
  | resolved
  | info
deriving DecidableEq, Repr

/-- `status` rendered the way the JS string compare sees it. -/
def Status.str : Status → String
  | .firing => "firing"
  | .resolved => "resolved"
  | .info => "info"

structure Alert where
  ts : Nat
  source : String := ""
  vendor_event_id : String := ""
  fingerprint : Option String := none
  title : Option String := none
  kind : Option String := none
  status : Status := .firing
  severity : String := "medium"
  service : Option String := none
  component : Option String := none
  resource : Option String := none
  entity_key : Option String := none
  deploy_key : Option String := none
deriving DecidableEq, Repr

/-- `alert.entity_key || alert.service || alert.component || alert.resource || 'na'`. -/
def entityKeyOf (a : Alert) : String :=
  jsOrStr a.entity_key (jsOrStr a.service (jsOrStr a.component (jsOrStr a.resource "na")))

/-! ### Dedup worker (`src/workers/dedup.worker.ts`) -/

/-- ASCII lowercasing, as `String.toLowerCase()` acts on the keys in play. -/
def asciiLower (c : Char) : Char :=
  if 'A' ≤ c ∧ c ≤ 'Z' then Char.ofNat (c.toNat + 32) else c

/-- The `[^a-z0-9_|]` sanitiser: any other character becomes `'_'`. -/
def sanChar (c : Char) : Char :=
  if ('a' ≤ c ∧ c ≤ 'z') ∨ ('0' ≤ c ∧ c ≤ '9') ∨ c = '_' ∨ c = '|' then c else '_'

/-- `generateFingerprint` of the dedup worker. -/
def generateFingerprint (a : Alert) : String :=
  let key := jsOrStr a.fingerprint (jsRender a.title) ++ "|" ++ a.severity ++ "|" ++
    jsOrStr a.entity_key (jsOrStr a.service (jsOrStr a.component (jsOrStr a.resource "na")))
  String.mk ((key.toList.map asciiLower).map sanChar)

/-- `generateDedupKey` of the dedup worker: `fingerprint|entity-key`. -/
def generateDedupKey (a : Alert) : String :=
  generateFingerprint a ++ "|" ++ entityKeyOf a

structure DedupState where
  lastSeen : List (String × Nat) := []
  counts : List (String × Nat) := []
  flapCounts : List (String × Nat) := []
  lastToggle : List (String × Status) := []
deriving DecidableEq, Repr

/-- `updateDedupState` of the dedup worker.  Returns the new state, the
duplicate flag and the count.  (`now - last < ttlMs` on JS numbers agrees
with truncated `Nat` subtraction for `ttlMs > 0`: an out-of-order alert
with `last > now` is a duplicate either way.) -/
def updateDedupState (st : DedupState) (a : Alert) (ttlMs : Nat) : DedupState × Bool × Nat :=
  let k := generateDedupKey a
  let last := (alFind st.lastSeen k).getD 0
  if a.ts - last < ttlMs then
    let cnt := (alFind st.counts k).getD 0 + 1
    let st1 := { st with counts := alSet st.counts k cnt }
    let st2 :=
      match alFind st1.lastToggle k with
      | some s =>
          if s ≠ a.status then
            { st1 with flapCounts := alSet st1.flapCounts k ((alFind st1.flapCounts k).getD 0 + 1) }
          else st1
      | none => st1
    ({ st2 with lastToggle := alSet st2.lastToggle k a.status }, true, cnt)
  else
    ({ st with
        lastSeen := alSet st.lastSeen k a.ts
        counts := alSet st.counts k 1
        lastToggle := alSet st.lastToggle k a.status }, false, 1)

/-- One iteration of the `for (const alert of batch)` loop in the dedup
worker's message handler: duplicates are skipped iff the (freshly
updated) flap count exceeds 3, everything else is pushed downstream. -/
def dedupStep (ttlMs : Nat) (acc : DedupState × List Alert) (a : Alert) :
    DedupState × List Alert :=
  let r := updateDedupState acc.1 a ttlMs
  if r.2.1 ∧ (alFind r.1.flapCounts (generateDedupKey a)).getD 0 > 3 then
    (r.1, acc.2)
  else
    (r.1, acc.2 ++ [a])

/-- The per-alert pass of the dedup worker over a batch. -/
def dedupBatch (st : DedupState) (batch : List Alert) (ttlMs : Nat) :
    DedupState × List Alert :=
  batch.foldl (dedupStep ttlMs) (st, [])

/-! #### Rate limiting (`applyRateLimiting`) -/

def tsLe (a b : Alert) : Prop := a.ts ≤ b.ts

instance : DecidableRel tsLe := fun a b => inferInstanceAs (Decidable (a.ts ≤ b.ts))

instance : IsTotal Alert tsLe := ⟨fun a b => Nat.le_total a.ts b.ts⟩

instance : IsTrans Alert tsLe := ⟨fun _ _ _ h h' => Nat.le_trans h h'⟩

/-- `entityAlertList.sort((a, b) => a.ts - b.ts)` (stable, like JS sort). -/
def sortByTs (l : List Alert) : List Alert := List.insertionSort tsLe l

/-- Grouping of the batch by entity key, in first-appearance order
(JS `Map` iteration order). -/
def groupByEntity (batch : List Alert) : List (String × List Alert) :=
  batch.foldl (fun gs a => alPush gs (entityKeyOf a) a) []

/-- The inner walk of `applyRateLimiting` over one entity's ts-sorted
alerts: alerts within the 60 s window count against the per-minute cap
(hardcoded 100); alerts outside the window always pass. -/
def rateWalk (now : Nat) : Nat → List Alert → List Alert
  | _, [] => []
  | cnt, a :: rest =>
    if now - a.ts ≤ 60000 then
      if cnt < 100 then a :: rateWalk now (cnt + 1) rest
      else rateWalk now cnt rest
    else
      a :: rateWalk now cnt rest

/-- `applyRateLimiting` of the dedup worker (`now` is the wall clock it
reads via `Date.now()`). -/
def applyRateLimiting (now : Nat) (batch : List Alert) : List Alert :=
  (groupByEntity batch).foldl (fun acc g => acc ++ rateWalk now 0 (sortByTs g.2)) []

/-- `garbageCollect` of the dedup worker: every key whose `lastSeen` is
older than 10 minutes is removed from all four maps. -/
def garbageCollect (now : Nat) (st : DedupState) : DedupState :=
  let stale := (st.lastSeen.filter (fun p => decide (600000 < now - p.2))).map Prod.fst
  { lastSeen := st.lastSeen.filter (fun p => decide (¬ 600000 < now - p.2))
    counts := st.counts.filter (fun p => decide (p.1 ∉ stale))
    flapCounts := st.flapCounts.filter (fun p => decide (p.1 ∉ stale))
    lastToggle := st.lastToggle.filter (fun p => decide (p.1 ∉ stale)) }

/-- The dedup worker's whole `onmessage` data path: per-alert pass, rate
limiting, then garbage collection.  Returns the post-GC state and the
downstream batch. -/
def dedupWorker (st : DedupState) (batch : List Alert) (ttlMs now : Nat) :
    DedupState × List Alert :=
  let r := dedupBatch st batch ttlMs
  (garbageCollect now r.1, applyRateLimiting now r.2)

/-! ### The engine-level deduplicator (`CorrelationEngine.deduplicateAlerts`,
`src/main.js`): a per-batch map, keeping an alert iff
`alert.ts - last >= dedupTtlMs`. -/

def engineDedupKey (a : Alert) : String :=
  jsRender (jsOrOpt a.fingerprint a.kind) ++ "|" ++ a.severity ++ "|" ++
    jsOrStr a.entity_key (jsOrStr a.service "na")

def deduplicateAlerts (alerts : List Alert) (dedupTtlMs : Nat) : List Alert :=
  (alerts.foldl
    (fun (acc : List (String × Nat) × List Alert) a =>
      let last := (alFind acc.1 (engineDedupKey a)).getD 0
      if a.ts - last ≥ dedupTtlMs then
        (alSet acc.1 (engineDedupKey a) a.ts, acc.2 ++ [a])
      else acc)
    ([], [])).2

/-! ### Episode cluster worker (`src/workers/cluster.worker.ts`) -/

structure Episode where
  entity_key : String
  fingerprint : String
  vendorMix : List String
  start : Nat
  /-- the `end` field of the source (a Lean keyword). -/
  stop : Nat
  count : Nat
  ids : List String
  alerts : List Alert
  severity : String
deriving DecidableEq, Repr

def defaultEpisode : Episode :=
  { entity_key := "", fingerprint := "", vendorMix := [], start := 0, stop := 0,
    count := 0, ids := [], alerts := [], severity := "" }

instance : Inhabited Episode := ⟨defaultEpisode⟩

/-- `alert.fingerprint || dollar-brace-alert.title-brace|dollar-brace-alert.severity-brace`. -/
def clusterFingerprintOf (a : Alert) : String :=
  jsOrStr a.fingerprint (jsRender a.title ++ "|" ++ a.severity)

/-- `generateEpisodeKey`: `entity-key|fingerprint`. -/
def generateEpisodeKey (a : Alert) : String :=
  entityKeyOf a ++ "|" ++ clusterFingerprintOf a

/-- `getSeverityWeight` of the cluster worker. -/
def getSeverityWeight (s : String) : Nat :=
  if s = "critical" then 4
  else if s = "high" then 3
  else if s = "medium" then 2
  else if s = "low" then 1
  else 1

/-- The fresh episode installed by `getOrCreateEpisode` when the key is absent. -/
def freshEpisode (a : Alert) : Episode :=
  { entity_key := entityKeyOf a
    fingerprint := clusterFingerprintOf a
    vendorMix := [a.source]
    start := a.ts
    stop := a.ts
    count := 1
    ids := [a.vendor_event_id]
    alerts := [a]
    severity := a.severity }

/-- JS `Set.add` on the vendor mix: no duplicates, insertion order kept. -/
def mixAdd (mix : List String) (s : String) : List String :=
  if s ∈ mix then mix else mix ++ [s]

/-- The mutations `updateEpisode` applies when the gap is within bounds. -/
def extendEpisode (ep : Episode) (a : Alert) : Episode :=
  { ep with
    stop := a.ts
    count := ep.count + 1
    vendorMix := mixAdd ep.vendorMix a.source
    severity := if getSeverityWeight a.severity > getSeverityWeight ep.severity
      then a.severity else ep.severity
    ids := if a.vendor_event_id ∈ ep.ids then ep.ids else ep.ids ++ [a.vendor_event_id]
    alerts := if ep.alerts.length < 50 then ep.alerts ++ [a] else ep.alerts }

/-- One iteration of the cluster worker's per-alert loop:
`getOrCreateEpisode` followed by an UNCONDITIONAL `updateEpisode` on the
same alert.  On a fresh key the just-created episode (count 1, the alert
stored once) is therefore immediately extended by its own creating alert
(`timeDiff = 0 ≤ gapMs`): count becomes 2 and the alert is stored twice
(the vendor-mix set and the id list deduplicate, so only `count` and
`alerts` double up).  When the key exists and the gap exceeds `gapMs`,
`updateEpisode` returns `false` ("start new episode") and the
`onmessage` handler performs no further action on the episode map — no
fresh episode is created and the stored one stays as it was.
(`alert.ts - episode.end > gapMs` agrees with truncated `Nat`
subtraction: an out-of-order alert never exceeds the gap either way.) -/
def clusterStep (gapMs : Nat) (episodes : List (String × Episode)) (a : Alert) :
    List (String × Episode) :=
  let k := generateEpisodeKey a
  match alFind episodes k with
  | none => alSet episodes k (extendEpisode (freshEpisode a) a)
  | some ep =>
    if a.ts - ep.stop > gapMs then episodes
    else alSet episodes k (extendEpisode ep a)

/-- The inner walk of `applyBurstClustering` after the first alert of the
sorted batch has been placed in the current cluster (`lastTs` is the
timestamp of the last alert of the current cluster). -/
def burstLoop (gapMs : Nat) : List Alert → List Alert → Nat → List Alert → List Alert
  | acc, cur, _, [] => acc ++ cur
  | acc, cur, lastTs, x :: rest =>
    if x.ts - lastTs ≤ gapMs then burstLoop gapMs acc (cur ++ [x]) x.ts rest
    else burstLoop gapMs (acc ++ cur) [x] x.ts rest

/-- `applyBurstClustering`: sort by timestamp, walk accumulating clusters,
emit every cluster (all alerts pass; only the boundaries differ). -/
def applyBurstClustering (batch : List Alert) (gapMs : Nat) : List Alert :=
  match sortByTs batch with
  | [] => []
  | x :: rest => burstLoop gapMs [] [x] x.ts rest

/-- The episode-map evolution of the cluster worker's `onmessage` handler
over one batch: burst clustering, then the per-alert loop. -/
def clusterBatch (episodes : List (String × Episode)) (batch : List Alert) (gapMs : Nat) :
    List (String × Episode) :=
  (applyBurstClustering batch gapMs).foldl (clusterStep gapMs) episodes

/-! ### Situation builder (`buildSituations` of the score worker) -/

/-- `jaccard` of the score worker, on the deduplicated source mixes. -/
def jaccard (a b : Finset String) : ℚ :=
  if a = ∅ ∧ b = ∅ then 1
  else if a = ∅ ∨ b = ∅ then 0
  else ((a ∩ b).card : ℚ) / ((a.card : ℚ) + (b.card : ℚ) - ((a ∩ b).card : ℚ))

/-- `joinable` of the score worker.  The `e1 === e2` reference check of the
source never fires inside `buildSituations` (the pair loop uses `i < j`
over distinct array slots), so it is not modelled.  The similarity
comparisons `eq ? 1.0 : 0.0 > 0.8` are equalities. -/
def joinable (e1 e2 : Episode) : Bool :=
  if e1.stop < e2.start ∨ e2.stop < e1.start then false
  else
    decide (e1.entity_key = e2.entity_key) || decide (e1.fingerprint = e2.fingerprint) ||
      decide ((3/10 : ℚ) < jaccard e1.vendorMix.toFinset e2.vendorMix.toFinset)

def startLe (a b : Episode) : Prop := a.start ≤ b.start

instance : DecidableRel startLe := fun a b => inferInstanceAs (Decidable (a.start ≤ b.start))

/-- `episodes.sort((a, b) => a.start - b.start)` (stable, like JS sort). -/
def sortByStart (l : List Episode) : List Episode := List.insertionSort startLe l

/-- `find` of the union-find, with fuel (the parent chain is shortened on
every hop; the source recursion always terminates on the states reached). -/
def ufFind (parent : List Nat) : Nat → Nat → Nat
  | 0, i => i
  | fuel + 1, i =>
    let p := parent.getD i i
    if p = i then i else ufFind parent fuel p

/-- `unite`: the root of `a` is pointed at the root of `b`. -/
def ufUnite (parent : List Nat) (a b : Nat) : List Nat :=
  let ra := ufFind parent parent.length a
  let rb := ufFind parent parent.length b
  if ra = rb then parent else parent.set ra rb

/-- The ordered pairs `(i, j)`, `i < j`, in the nested-loop order of the source. -/
def allPairs (n : Nat) : List (Nat × Nat) :=
  (List.range n).flatMap (fun i => ((List.range n).filter (fun j => decide (i < j))).map (fun j => (i, j)))

/-- Grouping by root, in episode order (JS `Map` insertion order). -/
def bucketFold (parent : List Nat) (n : Nat) : List (Nat × List Nat) :=
  (List.range n).foldl
    (fun bs i =>
      let root := ufFind parent parent.length i
      (bs.map (fun p => if p.1 = root then (p.1, p.2 ++ [i]) else p)) ++
        (if (bs.map Prod.fst).contains root then [] else [(root, [i])]))
    []

/-- The services of a group: `group.map(g => g.alerts.map(a => a.service).filter(Boolean)).flat`. -/
def groupServices (group : List Episode) : List String :=
  group.flatMap (fun g => g.alerts.filterMap (fun a =>
    match a.service with
    | some s => if s = "" then none else some s
    | none => none))

structure Situation where
  situation_id : String
  wstart : Nat
  wstop : Nat
  episodes : List Episode
  related_alerts : List Alert
  entities : Nat
  services : Nat
deriving DecidableEq, Repr

/-- The situation built from one union-find group. -/
def mkSituation (group : List Episode) (alerts : List Alert) : Situation :=
  let start := (group.map (·.start)).foldr min ((group.map (·.start)).headD 0)
  let stop := (group.map (·.stop)).foldr max 0
  { situation_id := "S-" ++ toString start ++ "-" ++ toString stop ++ "-" ++ toString group.length
    wstart := start
    wstop := stop
    episodes := group
    related_alerts := (alerts.filter (fun a => decide (start ≤ a.ts ∧ a.ts ≤ stop))).take 200
    entities := (group.map (·.entity_key)).dedup.length
    services := (groupServices group).dedup.length }

/-- The body of `buildSituations` after the initial in-place sort. -/
def buildSituationsSorted (eps : List Episode) (alerts : List Alert) : List Situation :=
  let n := eps.length
  let parent :=
    (allPairs n).foldl
      (fun p ij =>
        if joinable (eps.getD ij.1 defaultEpisode) (eps.getD ij.2 defaultEpisode)
        then ufUnite p ij.1 ij.2 else p)
      (List.range n)
  (bucketFold parent n).map (fun b => mkSituation (b.2.map (fun i => eps.getD i defaultEpisode)) alerts)

/-- `buildSituations` of the score worker: sort by start, union-find over
all joinable pairs, then one situation per bucket. -/
def buildSituations (episodes : List Episode) (alerts : List Alert) : List Situation :=
  buildSituationsSorted (sortByStart episodes) alerts

/-! ### Graph proximity (`shortestPathLen` of the score worker) -/

def adjGet (adj : List (String × List String)) (k : String) : List String :=
  (alFind adj k).getD []

/-- The inner `for (const neighbor of adj[current])` loop of
`shortestPathLen`: returns an early answer when `neighbor === dst`,
otherwise the updated seen set and queue (pushes go to the back). -/
def scanNbrs (dst : String) (d : Nat) :
    List String → List String → List (String × Nat) →
      Option Nat × List String × List (String × Nat)
  | [], seen, queue => (none, seen, queue)
  | n :: rest, seen, queue =>
    if n ∈ seen then scanNbrs dst d rest seen queue
    else if n = dst then (some (d + 1), seen, queue)
    else scanNbrs dst d rest (seen ++ [n]) (queue ++ [(n, d + 1)])

/-- The `while (queue.length > 0)` loop of `shortestPathLen`.  The fuel
only bounds the iteration count (every push is of an unseen node, so the
source loop terminates; `bfsFuel` below is an over-approximation). -/
def bfsLoop (adj : List (String × List String)) (dst : String) (limit : Nat) :
    Nat → List (String × Nat) → List String → Option Nat
  | 0, _, _ => none
  | _ + 1, [], _ => none
  | fuel + 1, (cur, d) :: rest, seen =>
    if limit ≤ d then bfsLoop adj dst limit fuel rest seen
    else
      match scanNbrs dst d (adjGet adj cur) seen rest with
      | (some r, _, _) => some r
      | (none, seen', queue') => bfsLoop adj dst limit fuel queue' seen'

def bfsFuel (adj : List (String × List String)) : Nat :=
  2 + adj.length + (adj.map (fun p => p.2.length)).sum

/-- `shortestPathLen` of the score worker (`none` is the source's
`Infinity`): depth-bounded BFS over the DIRECTED adjacency lists, after
requiring both `src` and `dst` to be present as keys of `adj`. -/
def shortestPathLen (adj : List (String × List String)) (src dst : String) (limit : Nat) :
    Option Nat :=
  if src = dst then some 0
  else if (alFind adj src).isNone ∨ (alFind adj dst).isNone then none
  else bfsLoop adj dst limit (bfsFuel adj) [(src, 0)] [src]

/-- The `bestPath` fold of `scoreSituation`: minimum finite path length
from the cause's entity to any effect's entity. -/
def bestPathOf (adj : List (String × List String)) (cause : Episode)
    (others : List Episode) : Option Nat :=
  others.foldl
    (fun b ep =>
      match shortestPathLen adj cause.entity_key ep.entity_key 4 with
      | some d =>
        match b with
        | none => some d
        | some bd => if d < bd then some d else b
      | none => b)
    none

/-- `pathScore = bestPath === Infinity ? 0 : 1 / (1 + bestPath)`. -/
def pathScoreQ : Option Nat → ℚ
  | none => 0
  | some d => 1 / (1 + (d : ℚ))

/-- The graph-proximity component of `scoreSituation`: cause = earliest
episode, effects = the rest. -/
def situationPathScore (adj : List (String × List String)) (sit : Situation) : ℚ :=
  let sorted := sortByStart sit.episodes
  pathScoreQ (bestPathOf adj (sorted.headD defaultEpisode) sorted.tail)

/-! ### Lead-lag correlation (`corrLeadLag` of the score worker)

The source compares floating-point cosine scores `num / sqrt(denA*denB)`.
We carry the integer data `(num, den)` (value `num / √den`) and translate
every comparison `score₁ > score₂` into the equivalent integer comparison
`num₂² · den₁ < num₁² · den₂` (see `simReal_lt_iff`, proved below, for
the faithfulness of this translation when both `den`s are positive, which
the folds maintain). -/

/-- `bins.get(bin)` of the 1-second histogram of `ts`. -/
def binCount (ts : List Nat) (i : Nat) : Nat := ts.countP (fun t => t / 1000 == i)

/-- The key set of the JS `Map` built by `toBins` (first-occurrence order). -/
def binSupp (ts : List Nat) : List Nat := (ts.map (· / 1000)).dedup

/-- `denomA`: the loop runs over the entries of `A`, so this is `⟨A,A⟩`. -/
def dotA (aTs : List Nat) : Nat := ((binSupp aTs).map (fun i => binCount aTs i ^ 2)).sum

/-- `numerator` at a given lag: `Σ_{bin ∈ A} A[bin] · B[bin+lag]`. -/
def candNum (aTs bTs : List Nat) (lag : Nat) : Nat :=
  ((binSupp aTs).map (fun i => binCount aTs i * binCount bTs (i + lag))).sum

/-- `denomB` at a given lag: the loop only visits the bins of `A`, so this
is `Σ_{bin ∈ A} B[bin+lag]²` — NOT `⟨B,B⟩`. -/
def candDB (aTs bTs : List Nat) (lag : Nat) : Nat :=
  ((binSupp aTs).map (fun i => binCount bTs (i + lag) ^ 2)).sum

/-- The running best of `corrLeadLag`: value `num / √den` at `lagMs`. -/
structure LagBest where
  lagMs : Nat
  num : Nat
  den : Nat
deriving DecidableEq, Repr

/-- One iteration of the lag loop: consider the lag only when both
denominators are positive, and update on a strictly larger score. -/
def corrStep (aTs bTs : List Nat) (best : LagBest) (lag : Nat) : LagBest :=
  let n := candNum aTs bTs lag
  let da := dotA aTs
  let db := candDB aTs bTs lag
  if 0 < da ∧ 0 < db ∧ best.num ^ 2 * (da * db) < n ^ 2 * best.den then
    ⟨lag * 1000, n, da * db⟩
  else best

/-- `corrLeadLag`: empty inputs give `(lag 0, score 0)`; otherwise the
lag loop runs over `0 … ⌊maxLeadMs/1000⌋`. -/
def corrLeadLag (aTs bTs : List Nat) (maxLeadMs : Nat) : LagBest :=
  if aTs = [] ∨ bTs = [] then ⟨0, 0, 1⟩
  else (List.range (maxLeadMs / 1000 + 1)).foldl (corrStep aTs bTs) ⟨0, 0, 1⟩

/-- The effects fold of `scoreSituation`: `if (lag.score > bestLag.score)`. -/
def bestLagOf (cause : Episode) (others : List Episode) (maxLeadMs : Nat) : LagBest :=
  others.foldl
    (fun best ep =>
      let r := corrLeadLag (cause.alerts.map (·.ts)) (ep.alerts.map (·.ts)) maxLeadMs
      if best.num ^ 2 * r.den < r.num ^ 2 * best.den then r else best)
    ⟨0, 0, 1⟩

/-- The real value of a tracked score. -/
noncomputable def simReal (num den : Nat) : ℝ := (num : ℝ) / Real.sqrt (den : ℝ)

/-- The cosine similarity the SPEC prescribes at a given lag:
`⟨A, B_shifted⟩ / √(⟨A,A⟩·⟨B,B⟩)`, with the full `⟨B,B⟩ = dotA bTs`. -/
noncomputable def specCosine (aTs bTs : List Nat) (lag : Nat) : ℝ :=
  (candNum aTs bTs lag : ℝ) / Real.sqrt ((dotA aTs : ℝ) * (dotA bTs : ℝ))

/-! ### Claim C3 — graph proximity -/

def c3adjMissing : List (String × List String) := [("a", ["b"]), ("b", ["c"])]

def c3adjFull : List (String × List String) := [("a", ["b"]), ("b", ["c"]), ("c", [])]

def c3EpA : Episode :=
  { entity_key := "a", fingerprint := "fpA", vendorMix := ["k8s"], start := 0,
    stop := 10000, count := 1, ids := [], alerts := [], severity := "medium" }

def c3EpC : Episode :=
  { entity_key := "c", fingerprint := "fpC", vendorMix := ["datadog"], start := 5000,
    stop := 15000, count := 1, ids := [], alerts := [], severity := "medium" }

/-! ### Composite scoring (`scoreSituation` of the score worker) -/

/-- `severityWeight` of the score worker. -/
def severityWeight (s : String) : ℚ :=
  if s = "critical" then 1
  else if s = "high" then 3/4
  else if s = "medium" then 1/2
  else if s = "low" then 1/4
  else 1/4

/-- `Math.max(...episodes.map(severityWeight))`; the scorer only runs on
non-empty situations, where the extra bottom `0` is inert (every weight
is at least `1/4`). -/
def sevMax (eps : List Episode) : ℚ :=
  (eps.map (fun ep => severityWeight ep.severity)).foldr max 0

/-- The change-proximity component: 1.0 when some related alert carries a
truthy `deploy_key` within 10 minutes of the window start, else 0.2. -/
def changeProx (sit : Situation) : ℚ :=
  if sit.related_alerts.any (fun a =>
      truthy a.deploy_key && decide ((((a.ts : ℤ) - (sit.wstart : ℤ)).natAbs ≤ 600000)))
  then 1 else 1/5

/-- `Σ |vendorMix| − |episodes|` (can be negative in JS; `ℤ` here). -/
def echoExcess (eps : List Episode) : ℤ :=
  ((eps.map (fun ep => ep.vendorMix.length)).sum : ℤ) - eps.length

/-- `echoPenalty = max(0, (Σ|vendorMix| − |episodes|) · 0.05)`. -/
def echoPenalty (eps : List Episode) : ℚ :=
  max 0 ((echoExcess eps : ℚ) * (5/100))

/-- The flap penalty is wired to 0 in the source. -/
def flapPenaltyQ : ℚ := 0

/-- The lead-lag best of `scoreSituation`: cause = earliest episode,
effects = the rest. -/
def situationBestLag (maxLeadMs : Nat) (sit : Situation) : LagBest :=
  bestLagOf ((sortByStart sit.episodes).headD defaultEpisode)
    (sortByStart sit.episodes).tail maxLeadMs

/-- The composite score of `scoreSituation`:
`0.35·change + 0.2·s* + 0.2·pathScore + 0.15·ln(1+entities) + 0.15·sev
− 0.1·flap − 0.05·echo`. -/
noncomputable def compositeScore (adj : List (String × List String)) (maxLeadMs : Nat)
    (sit : Situation) : ℝ :=
  0.35 * ((changeProx sit : ℚ) : ℝ) +
    0.2 * simReal (situationBestLag maxLeadMs sit).num (situationBestLag maxLeadMs sit).den +
    0.2 * ((situationPathScore adj sit : ℚ) : ℝ) +
    0.15 * Real.log (1 + (sit.entities : ℝ)) +
    0.15 * ((sevMax sit.episodes : ℚ) : ℝ) -
    0.1 * ((flapPenaltyQ : ℚ) : ℝ) -
    0.05 * ((echoPenalty sit.episodes : ℚ) : ℝ)

/-- `primary_cause.confidence = Math.min(1, composite)`. -/
noncomputable def confidence (adj : List (String × List String)) (maxLeadMs : Nat)
    (sit : Situation) : ℝ :=
  min 1 (compositeScore adj maxLeadMs sit)

/-- A single-episode situation whose source mix holds 100 distinct
sources (severity low, no deploy keys, one entity). -/
def c5Mix : List String := (List.range 100).map (fun i => toString i)

def c5Ep : Episode :=
  { entity_key := "svc", fingerprint := "fp", vendorMix := c5Mix, start := 0,
    stop := 1000, count := 100, ids := [], alerts := [], severity := "low" }

def c5Sit : Situation :=
  { situation_id := "S-0-1000-1", wstart := 0, wstop := 1000, episodes := [c5Ep],
    related_alerts := [], entities := 1, services := 0 }

/-! ### K8s event threshold engine (`K8sEventProcessor`, `src/main.js`) -/

structure K8sEvent where
  ts : Nat
  /-- the `namespace` field of the source (a Lean keyword). -/
  ns : String := ""
  reason : String := ""
  type : String := ""
  message : String := ""
  objKind : String := ""
  objName : String := ""
deriving DecidableEq, Repr

/-- A threshold rule.  The `match` object of the source holds equality
conditions on top-level fields (the configured rules use `reason` and
`type`), a `messagePattern` substring condition and an
`involvedObjectKind` condition; absent entries impose nothing. -/
structure K8sRule where
  name : String
  key : List String
  matchReason : Option String := none
  matchType : Option String := none
  messagePattern : Option String := none
  involvedObjectKind : Option String := none
  threshold : Nat
  severity : String
  window : Nat
  cooldown : Nat
deriving DecidableEq, Repr

/-- JS `message.includes(pattern)`. -/
def strContains (s pat : String) : Bool :=
  (List.range (s.toList.length + 1)).any (fun i => pat.toList.isPrefixOf (s.toList.drop i))

/-- `K8sEvent.matches(rule)`. -/
def eventMatches (e : K8sEvent) (r : K8sRule) : Bool :=
  (match r.matchReason with | some v => e.reason == v | none => true) &&
  (match r.matchType with | some v => e.type == v | none => true) &&
  (match r.messagePattern with | some v => strContains e.message v | none => true) &&
  (match r.involvedObjectKind with | some v => e.objKind == v | none => true)

/-- The field selectors of `K8sEvent.getKey` (`this[k] || ""`). -/
def eventField (e : K8sEvent) (k : String) : String :=
  if k = "involvedObject.name" then e.objName
  else if k = "involvedObject.kind" then e.objKind
  else if k = "namespace" then e.ns
  else if k = "reason" then e.reason
  else if k = "type" then e.type
  else if k = "message" then e.message
  else ""

/-- `K8sEvent.getKey(rule)`: the selected fields joined with `|`. -/
def getKey (e : K8sEvent) (r : K8sRule) : String :=
  String.intercalate "|" (r.key.map (eventField e))

def ruleKeyOf (e : K8sEvent) (r : K8sRule) : String := r.name ++ "|" ++ getKey e r

/-- The deterministic content of a synthesized alert (the source also
stamps a wall-clock `ts` and a random `id` at creation time; those
creation-time fields are outside the model). -/
structure EmittedAlert where
  rule : String
  key : String
  severity : String
  count : Nat
  first_ts : Nat
  last_ts : Nat
  source : String
deriving DecidableEq, Repr

structure EngineState where
  ruleStates : List (String × List Nat) := []
  cooldowns : List (String × Nat) := []
  generated : List EmittedAlert := []
deriving DecidableEq, Repr

/-- The `while (state[0] < cutoff) state.shift()` prune. -/
def pruneSeq (seq : List Nat) (cutoff : Nat) : List Nat :=
  seq.dropWhile (fun t => decide (t < cutoff))

/-- The pruned-and-extended timestamp sequence at `(rule, key)` after an
event (`cutoff = now − window` in truncated `Nat` arithmetic, which
agrees with the JS comparison since timestamps are non-negative). -/
def seqAfter (st : EngineState) (e : K8sEvent) (r : K8sRule) : List Nat :=
  pruneSeq ((alFind st.ruleStates (ruleKeyOf e r)).getD []) (e.ts - r.window) ++ [e.ts]

/-- `createAlertFromRule`, restricted to the deterministic fields. -/
def mkEmitted (r : K8sRule) (key : String) (seq : List Nat) : EmittedAlert :=
  { rule := r.name, key := key, severity := r.severity, count := seq.length,
    first_ts := seq.headD 0, last_ts := seq.getLastD 0, source := "k8s" }

/-- One rule of `K8sEventProcessor.processEvent` (non-matching rules
leave the state untouched; `isInCooldown` is `cooldownEnd && now <
cooldownEnd`, where a missing or zero entry is falsy — `getD 0` gives
exactly that). -/
def processRule (e : K8sEvent) (st : EngineState) (r : K8sRule) : EngineState :=
  if eventMatches e r then
    let seq := seqAfter st e r
    if r.threshold ≤ seq.length ∧ ¬ e.ts < (alFind st.cooldowns (ruleKeyOf e r)).getD 0 then
      { ruleStates := alSet st.ruleStates (ruleKeyOf e r) seq
        cooldowns := alSet st.cooldowns (ruleKeyOf e r) (e.ts + r.cooldown)
        generated := st.generated ++ [mkEmitted r (getKey e r) seq] }
    else
      { st with ruleStates := alSet st.ruleStates (ruleKeyOf e r) seq }
  else st

/-- `processEvent`: fold over the configured rules. -/
def processEvent (rules : List K8sRule) (st : EngineState) (e : K8sEvent) : EngineState :=
  rules.foldl (processRule e) st

/-- A whole event sequence. -/
def processEvents (rules : List K8sRule) (st : EngineState) (es : List K8sEvent) : EngineState :=
  es.foldl (processEvent rules) st

/-- The CrashLoopBackOff rule of the configuration. -/
def c9Rule : K8sRule :=
  { name := "CrashLoopBackOff bursts", key := ["namespace", "involvedObject.name"],
    matchReason := some "BackOff", matchType := some "Warning",
    threshold := 5, severity := "high", window := 300000, cooldown := 600000 }

def c9Event : K8sEvent :=
  { ts := 1000000, ns := "shop", reason := "BackOff", type := "Warning",
    message := "Back-off restarting failed container",
    objKind := "Pod", objName := "cart-6c7b9f77cc-7sftn" }

/-! ### Claim C1 — episode gap break -/

/-- The three alerts of the gap-break scenario: same entity and
fingerprint, timestamps `t`, `t+60000`, `t+300000` (with `t = 0`). -/
def c1Alert (i t : Nat) : Alert :=
  { ts := t, vendor_event_id := toString i, fingerprint := some "fp",
    entity_key := some "svc", severity := "high", source := "k8s" }

/-- The two alerts of the single-duplicate scenario (`ttl = 120000`,
timestamps 200000 and 230000). -/
def c2Alert1 : Alert :=
  { ts := 200000, source := "datadog", vendor_event_id := "e1",
    fingerprint := some "fp1", entity_key := some "svc", severity := "high" }

def c2Alert2 : Alert :=
  { c2Alert1 with ts := 230000, vendor_event_id := "e2" }

/-! ### Claim C8 — situation join by source-mix -/

/-- The two overlapping episodes of the source-mix scenario, with mixes
`{k8s, datadog}` and `{datadog, logicmonitor}` (Jaccard `1/3`). -/
def c8Ep1 : Episode :=
  { entity_key := "svc-a|api", fingerprint := "fpA", vendorMix := ["k8s", "datadog"],
    start := 0, stop := 10000, count := 1, ids := [], alerts := [], severity := "medium" }

def c8Ep2 : Episode :=
  { entity_key := "svc-b|api", fingerprint := "fpB", vendorMix := ["datadog", "logicmonitor"],
    start := 5000, stop := 15000, count := 1, ids := [], alerts := [], severity := "medium" }

/-! ### Claim C4 — flap drop -/

/-- The alternating-status alerts of the flap scenario: same key,
timestamps `200000 + i·1000`. -/
def c4Alert (i : Nat) (s : Status) : Alert :=
  { ts := 200000 + i * 1000, vendor_event_id := toString i,
    fingerprint := some "fp", entity_key := some "svc", severity := "high", status := s }

/-- The three alerts of the order-inversion scenario: entities `e2`, `e1`,
`e2` with timestamps 50, 60, 70, wall clock 100. -/
def c7AlertA1 : Alert := { ts := 60, entity_key := some "e1", vendor_event_id := "A1" }

def c7AlertB1 : Alert := { ts := 50, entity_key := some "e2", vendor_event_id := "B1" }

def c7AlertB2 : Alert := { ts := 70, entity_key := some "e2", vendor_event_id := "B2" }

/-! ## Theorems -/

theorem simReal_nonneg (num den : Nat) : 0 ≤ simReal num den :=
  div_nonneg (by positivity) (Real.sqrt_nonneg _)

theorem simReal_lt_iff (a c b d : Nat) (hc : 0 < c) (hd : 0 < d) :
    simReal b d < simReal a c ↔ b ^ 2 * c < a ^ 2 * d := by
  have hcR : (0 : ℝ) < Real.sqrt (c : ℝ) := Real.sqrt_pos.mpr (by exact_mod_cast hc)
  have hdR : (0 : ℝ) < Real.sqrt (d : ℝ) := Real.sqrt_pos.mpr (by exact_mod_cast hd)
  have hcc : Real.sqrt (c : ℝ) * Real.sqrt (c : ℝ) = (c : ℝ) :=
    Real.mul_self_sqrt (by positivity)
  have hdd : Real.sqrt (d : ℝ) * Real.sqrt (d : ℝ) = (d : ℝ) :=
    Real.mul_self_sqrt (by positivity)
  rw [simReal, simReal, div_lt_div_iff₀ hdR hcR]
  constructor
  · intro h
    have h2 : (b : ℝ) * Real.sqrt c * ((b : ℝ) * Real.sqrt c) <
        (a : ℝ) * Real.sqrt d * ((a : ℝ) * Real.sqrt d) :=
      mul_self_lt_mul_self (by positivity) h
    have h3 : (b : ℝ) ^ 2 * c < (a : ℝ) ^ 2 * d := by nlinarith [hcc, hdd]
    exact_mod_cast h3
  · intro h
    have hR : (b : ℝ) ^ 2 * (c : ℝ) < (a : ℝ) ^ 2 * (d : ℝ) := by exact_mod_cast h
    by_contra hcon
    push_neg at hcon
    have h2 : (a : ℝ) * Real.sqrt d * ((a : ℝ) * Real.sqrt d) ≤
        (b : ℝ) * Real.sqrt c * ((b : ℝ) * Real.sqrt c) :=
      mul_self_le_mul_self (by positivity) hcon
    nlinarith [hcc, hdd]

theorem simReal_le_iff (a c b d : Nat) (hc : 0 < c) (hd : 0 < d) :
    simReal a c ≤ simReal b d ↔ a ^ 2 * d ≤ b ^ 2 * c := by
  rw [← not_lt, simReal_lt_iff a c b d hc hd, not_lt]

theorem corr_fold_inv (aTs bTs : List Nat) :
    ∀ (l : List Nat) (acc : LagBest), 0 < acc.den →
      0 < (l.foldl (corrStep aTs bTs) acc).den ∧
      simReal acc.num acc.den ≤
        simReal (l.foldl (corrStep aTs bTs) acc).num (l.foldl (corrStep aTs bTs) acc).den ∧
      (∀ lag ∈ l, 0 < dotA aTs → 0 < candDB aTs bTs lag →
        simReal (candNum aTs bTs lag) (dotA aTs * candDB aTs bTs lag) ≤
          simReal (l.foldl (corrStep aTs bTs) acc).num (l.foldl (corrStep aTs bTs) acc).den) ∧
      (l.foldl (corrStep aTs bTs) acc = acc ∨
        ∃ lag ∈ l, l.foldl (corrStep aTs bTs) acc =
          ⟨lag * 1000, candNum aTs bTs lag, dotA aTs * candDB aTs bTs lag⟩ ∧
          0 < dotA aTs ∧ 0 < candDB aTs bTs lag) := by
  intro l
  induction l with
  | nil =>
    intro acc hden
    exact ⟨hden, le_refl _, by simp, Or.inl rfl⟩
  | cons lag0 rest ih =>
    intro acc hden
    simp only [List.foldl_cons]
    by_cases hcond : 0 < dotA aTs ∧ 0 < candDB aTs bTs lag0 ∧
        acc.num ^ 2 * (dotA aTs * candDB aTs bTs lag0) < candNum aTs bTs lag0 ^ 2 * acc.den
    · have hstep : corrStep aTs bTs acc lag0 =
          ⟨lag0 * 1000, candNum aTs bTs lag0, dotA aTs * candDB aTs bTs lag0⟩ := by
        rw [corrStep]
        simp only [if_pos hcond]
      have hdpos : 0 < dotA aTs * candDB aTs bTs lag0 := Nat.mul_pos hcond.1 hcond.2.1
      rw [hstep]
      obtain ⟨h1, h2, h3, h4⟩ := ih ⟨lag0 * 1000, candNum aTs bTs lag0,
        dotA aTs * candDB aTs bTs lag0⟩ hdpos
      have hlt : simReal acc.num acc.den <
          simReal (candNum aTs bTs lag0) (dotA aTs * candDB aTs bTs lag0) :=
        (simReal_lt_iff (candNum aTs bTs lag0) (dotA aTs * candDB aTs bTs lag0)
          acc.num acc.den hdpos hden).mpr hcond.2.2
      refine ⟨h1, le_trans hlt.le h2, ?_, ?_⟩
      · intro lag hlag hda hdb
        rcases List.mem_cons.mp hlag with h | h
        · subst h; exact h2
        · exact h3 lag h hda hdb
      · rcases h4 with h | ⟨lag, hlag, heq, hda, hdb⟩
        · exact Or.inr ⟨lag0, List.mem_cons_self _ _, h, hcond.1, hcond.2.1⟩
        · exact Or.inr ⟨lag, List.mem_cons_of_mem _ hlag, heq, hda, hdb⟩
    · have hstep : corrStep aTs bTs acc lag0 = acc := by
        rw [corrStep]
        simp only [if_neg hcond]
      rw [hstep]
      obtain ⟨h1, h2, h3, h4⟩ := ih acc hden
      refine ⟨h1, h2, ?_, ?_⟩
      · intro lag hlag hda hdb
        rcases List.mem_cons.mp hlag with h | h
        · subst h
          have hdpos : 0 < dotA aTs * candDB aTs bTs lag := Nat.mul_pos hda hdb
          have hle : simReal (candNum aTs bTs lag) (dotA aTs * candDB aTs bTs lag) ≤
              simReal acc.num acc.den := by
            rw [simReal_le_iff _ _ _ _ hdpos hden]
            have := hcond
            push_neg at this
            exact this hda hdb
          exact le_trans hle h2
        · exact h3 lag h hda hdb
      · rcases h4 with h | ⟨lag, hlag, heq, hda, hdb⟩
        · exact Or.inl h
        · exact Or.inr ⟨lag, List.mem_cons_of_mem _ hlag, heq, hda, hdb⟩

theorem corrLeadLag_den_pos (aTs bTs : List Nat) (maxLeadMs : Nat) :
    0 < (corrLeadLag aTs bTs maxLeadMs).den := by
  rw [corrLeadLag]
  split
  · norm_num
  · exact (corr_fold_inv aTs bTs (List.range (maxLeadMs / 1000 + 1)) ⟨0, 0, 1⟩
      (by norm_num)).1

theorem bestLag_fold_inv (cause : Episode) (maxLeadMs : Nat) :
    ∀ (l : List Episode) (acc : LagBest), 0 < acc.den →
      0 < (l.foldl (fun best ep =>
          let r := corrLeadLag (cause.alerts.map (·.ts)) (ep.alerts.map (·.ts)) maxLeadMs
          if best.num ^ 2 * r.den < r.num ^ 2 * best.den then r else best) acc).den ∧
      simReal acc.num acc.den ≤
        simReal (l.foldl (fun best ep =>
          let r := corrLeadLag (cause.alerts.map (·.ts)) (ep.alerts.map (·.ts)) maxLeadMs
          if best.num ^ 2 * r.den < r.num ^ 2 * best.den then r else best) acc).num
          (l.foldl (fun best ep =>
          let r := corrLeadLag (cause.alerts.map (·.ts)) (ep.alerts.map (·.ts)) maxLeadMs
          if best.num ^ 2 * r.den < r.num ^ 2 * best.den then r else best) acc).den ∧
      (∀ ep ∈ l,
        simReal (corrLeadLag (cause.alerts.map (·.ts)) (ep.alerts.map (·.ts)) maxLeadMs).num
            (corrLeadLag (cause.alerts.map (·.ts)) (ep.alerts.map (·.ts)) maxLeadMs).den ≤
          simReal (l.foldl (fun best ep =>
          let r := corrLeadLag (cause.alerts.map (·.ts)) (ep.alerts.map (·.ts)) maxLeadMs
          if best.num ^ 2 * r.den < r.num ^ 2 * best.den then r else best) acc).num
          (l.foldl (fun best ep =>
          let r := corrLeadLag (cause.alerts.map (·.ts)) (ep.alerts.map (·.ts)) maxLeadMs
          if best.num ^ 2 * r.den < r.num ^ 2 * best.den then r else best) acc).den) := by
  intro l
  induction l with
  | nil =>
    intro acc hden
    exact ⟨hden, le_refl _, by simp⟩
  | cons ep0 rest ih =>
    intro acc hden
    simp only [List.foldl_cons]
    have hrden : 0 < (corrLeadLag (cause.alerts.map (·.ts)) (ep0.alerts.map (·.ts))
        maxLeadMs).den := corrLeadLag_den_pos _ _ _
    by_cases hcond : acc.num ^ 2 *
        (corrLeadLag (cause.alerts.map (·.ts)) (ep0.alerts.map (·.ts)) maxLeadMs).den <
        (corrLeadLag (cause.alerts.map (·.ts)) (ep0.alerts.map (·.ts)) maxLeadMs).num ^ 2 *
        acc.den
    · simp only [if_pos hcond]
      obtain ⟨h1, h2, h3⟩ := ih (corrLeadLag (cause.alerts.map (·.ts))
        (ep0.alerts.map (·.ts)) maxLeadMs) hrden
      have hlt : simReal acc.num acc.den <
          simReal (corrLeadLag (cause.alerts.map (·.ts)) (ep0.alerts.map (·.ts)) maxLeadMs).num
            (corrLeadLag (cause.alerts.map (·.ts)) (ep0.alerts.map (·.ts)) maxLeadMs).den :=
        (simReal_lt_iff _ _ _ _ hrden hden).mpr hcond
      refine ⟨h1, le_trans hlt.le h2, ?_⟩
      intro ep hep
      rcases List.mem_cons.mp hep with h | h
      · subst h; exact h2
      · exact h3 ep h
    · simp only [if_neg hcond]
      obtain ⟨h1, h2, h3⟩ := ih acc hden
      refine ⟨h1, h2, ?_⟩
      intro ep hep
      rcases List.mem_cons.mp hep with h | h
      · subst h
        have hle : simReal (corrLeadLag (cause.alerts.map (·.ts))
            (ep.alerts.map (·.ts)) maxLeadMs).num
            (corrLeadLag (cause.alerts.map (·.ts)) (ep.alerts.map (·.ts)) maxLeadMs).den ≤
            simReal acc.num acc.den := by
          rw [simReal_le_iff _ _ _ _ (corrLeadLag_den_pos _ _ _) hden]
          exact not_lt.mp hcond
        exact le_trans hle h2
      · exact h3 ep h

theorem severityWeight_ge_quarter (s : String) : (1/4 : ℚ) ≤ severityWeight s := by
  rw [severityWeight]
  split_ifs <;> norm_num

theorem sevMax_ge_quarter (eps : List Episode) (hne : eps ≠ []) :
    (1/4 : ℚ) ≤ sevMax eps := by
  cases eps with
  | nil => exact absurd rfl hne
  | cons e rest =>
    rw [sevMax, List.map_cons, List.foldr_cons]
    exact le_trans (severityWeight_ge_quarter e.severity) (le_max_left _ _)

theorem changeProx_ge (sit : Situation) : (1/5 : ℚ) ≤ changeProx sit := by
  rw [changeProx]
  split_ifs <;> norm_num

theorem pathScoreQ_nonneg (b : Option Nat) : 0 ≤ pathScoreQ b := by
  cases b with
  | none => simp [pathScoreQ]
  | some d => rw [pathScoreQ]; positivity

theorem echoPenalty_nonneg (eps : List Episode) : 0 ≤ echoPenalty eps := le_max_left 0 _

theorem echoPenalty_le (eps : List Episode) (h : echoExcess eps ≤ 43) :
    echoPenalty eps ≤ 43/20 := by
  rw [echoPenalty]
  apply max_le
  · norm_num
  · have hq : (echoExcess eps : ℚ) ≤ 43 := by exact_mod_cast h
    nlinarith

/-! ### Helper lemmas about the dedup stage -/

theorem updateDedupState_new (st : DedupState) (a : Alert) (ttl : Nat)
    (h : ¬ a.ts - (alFind st.lastSeen (generateDedupKey a)).getD 0 < ttl) :
    updateDedupState st a ttl =
      ({ st with
          lastSeen := alSet st.lastSeen (generateDedupKey a) a.ts
          counts := alSet st.counts (generateDedupKey a) 1
          lastToggle := alSet st.lastToggle (generateDedupKey a) a.status }, false, 1) := by
  simp [updateDedupState, h]

theorem updateDedupState_dup_noflap (st : DedupState) (a : Alert) (ttl : Nat)
    (h : a.ts - (alFind st.lastSeen (generateDedupKey a)).getD 0 < ttl)
    (htog : alFind st.lastToggle (generateDedupKey a) = none ∨
      alFind st.lastToggle (generateDedupKey a) = some a.status) :
    updateDedupState st a ttl =
      ({ st with
          counts := alSet st.counts (generateDedupKey a)
            ((alFind st.counts (generateDedupKey a)).getD 0 + 1)
          lastToggle := alSet st.lastToggle (generateDedupKey a) a.status }, true,
        (alFind st.counts (generateDedupKey a)).getD 0 + 1) := by
  rcases htog with htog | htog <;> simp [updateDedupState, h, htog]

theorem updateDedupState_dup_flap (st : DedupState) (a : Alert) (ttl : Nat) (s : Status)
    (h : a.ts - (alFind st.lastSeen (generateDedupKey a)).getD 0 < ttl)
    (htog : alFind st.lastToggle (generateDedupKey a) = some s) (hne : s ≠ a.status) :
    updateDedupState st a ttl =
      ({ st with
          counts := alSet st.counts (generateDedupKey a)
            ((alFind st.counts (generateDedupKey a)).getD 0 + 1)
          flapCounts := alSet st.flapCounts (generateDedupKey a)
            ((alFind st.flapCounts (generateDedupKey a)).getD 0 + 1)
          lastToggle := alSet st.lastToggle (generateDedupKey a) a.status }, true,
        (alFind st.counts (generateDedupKey a)).getD 0 + 1) := by
  simp [updateDedupState, h, htog, hne]

theorem rateWalk_of_short (now : Nat) :
    ∀ (l : List Alert) (cnt : Nat), l.length + cnt ≤ 100 → rateWalk now cnt l = l := by
  intro l
  induction l with
  | nil => intro cnt _; rfl
  | cons a rest ih =>
    intro cnt hlen
    simp only [rateWalk]
    have hcnt : cnt < 100 := by simp only [List.length_cons] at hlen; omega
    have hrec : rest.length + (cnt + 1) ≤ 100 := by
      simp only [List.length_cons] at hlen; omega
    have hrec' : rest.length + cnt ≤ 100 := by omega
    by_cases h1 : now - a.ts ≤ 60000
    · rw [if_pos h1, if_pos hcnt, ih (cnt + 1) hrec]
    · rw [if_neg h1, ih cnt hrec']

theorem rateWalk_sublist (now : Nat) :
    ∀ (l : List Alert) (cnt : Nat), (rateWalk now cnt l).Sublist l := by
  intro l
  induction l with
  | nil => intro cnt; simp [rateWalk]
  | cons a rest ih =>
    intro cnt
    simp only [rateWalk]
    split
    · split
      · exact (ih (cnt + 1)).cons₂ a
      · exact (ih cnt).cons a
    · exact (ih cnt).cons₂ a

theorem foldl_append_eq_flatMap {α β : Type} (f : α → List β) (l : List α) :
    ∀ init : List β, l.foldl (fun acc g => acc ++ f g) init = init ++ l.flatMap f := by
  induction l with
  | nil => intro init; simp
  | cons x rest ih => intro init; simp [List.foldl_cons, ih, List.append_assoc]

theorem applyRateLimiting_eq_flatMap (now : Nat) (batch : List Alert) :
    applyRateLimiting now batch =
      (groupByEntity batch).flatMap (fun g => rateWalk now 0 (sortByTs g.2)) := by
  simpa [applyRateLimiting] using
    foldl_append_eq_flatMap (fun g : String × List Alert => rateWalk now 0 (sortByTs g.2))
      (groupByEntity batch) []

theorem alPush_forall {β : Type} {P : β → Prop} :
    ∀ (gs : List (String × List β)) (k : String) (v : β),
      (∀ p ∈ gs, ∀ x ∈ p.2, P x) → P v → ∀ p ∈ alPush gs k v, ∀ x ∈ p.2, P x := by
  intro gs
  induction gs with
  | nil =>
    intro k v _ hv p hp x hx
    simp only [alPush, List.mem_singleton] at hp
    subst hp
    simp only [List.mem_singleton] at hx
    subst hx; exact hv
  | cons q rest ih =>
    intro k v hgs hv p hp x hx
    simp only [alPush] at hp
    by_cases hk : q.1 = k
    · rw [if_pos hk] at hp
      rcases List.mem_cons.mp hp with h | h
      · subst h
        rcases List.mem_append.mp hx with h2 | h2
        · exact hgs q (List.mem_cons_self q rest) x h2
        · simp only [List.mem_singleton] at h2; subst h2; exact hv
      · exact hgs p (List.mem_cons_of_mem q h) x hx
    · rw [if_neg hk] at hp
      rcases List.mem_cons.mp hp with h | h
      · subst h; exact hgs p (List.mem_cons_self _ _) x hx
      · exact ih k v (fun r hr => hgs r (List.mem_cons_of_mem q hr)) hv p h x hx

theorem groupByEntity_forall {P : Alert → Prop} :
    ∀ (l : List Alert) (gs : List (String × List Alert)),
      (∀ p ∈ gs, ∀ x ∈ p.2, P x) → (∀ a ∈ l, P a) →
      ∀ p ∈ l.foldl (fun gs a => alPush gs (entityKeyOf a) a) gs, ∀ x ∈ p.2, P x := by
  intro l
  induction l with
  | nil => intro gs hgs _ p hp; exact hgs p hp
  | cons a rest ih =>
    intro gs hgs hl p hp x hx
    simp only [List.foldl_cons] at hp
    exact ih (alPush gs (entityKeyOf a) a)
      (alPush_forall gs (entityKeyOf a) a hgs (hl a (List.mem_cons_self a rest)))
      (fun b hb => hl b (List.mem_cons_of_mem a hb)) p hp x hx

theorem applyRateLimiting_mem (now : Nat) (batch : List Alert) :
    ∀ a ∈ applyRateLimiting now batch, a ∈ batch := by
  intro a ha
  rw [applyRateLimiting_eq_flatMap] at ha
  rcases List.mem_flatMap.mp ha with ⟨g, hg, hag⟩
  have h1 : a ∈ sortByTs g.2 := (rateWalk_sublist now (sortByTs g.2) 0).mem hag
  have h2 : a ∈ g.2 := (List.perm_insertionSort tsLe g.2).mem_iff.mp h1
  exact groupByEntity_forall batch [] (by simp) (fun b hb => hb) g hg a h2

theorem alFind_filter_key {β : Type} (pred : String → Bool) (k : String) :
    ∀ m : List (String × β),
      alFind (m.filter (fun p => pred p.1)) k = if pred k then alFind m k else none := by
  intro m
  induction m with
  | nil => simp [alFind]
  | cons p rest ih =>
    by_cases hpk : p.1 = k
    · by_cases hp : pred p.1
      · rw [List.filter_cons_of_pos (by simpa using hp)]
        have hk' : pred k = true := by rw [← hpk]; simpa using hp
        simp [alFind, hpk, hk']
      · rw [List.filter_cons_of_neg (by simpa using hp)]
        rw [ih]
        have : pred k = false := by rw [← hpk]; simpa using hp
        simp [this, alFind, hpk]
    · by_cases hp : pred p.1
      · rw [List.filter_cons_of_pos (by simpa using hp)]
        simp [alFind, hpk, ih]
      · rw [List.filter_cons_of_neg (by simpa using hp)]
        simp [alFind, hpk, ih]

theorem alFind_mem {β : Type} (k : String) (t : β) :
    ∀ m : List (String × β), alFind m k = some t → (k, t) ∈ m := by
  intro m
  induction m with
  | nil => intro h; simp [alFind] at h
  | cons p rest ih =>
    intro h
    simp only [alFind] at h
    by_cases hpk : p.1 = k
    · rw [if_pos hpk] at h
      obtain ⟨k1, v1⟩ := p
      simp only at hpk
      simp only [Option.some_inj] at h
      subst hpk
      subst h
      exact List.mem_cons_self _ _
    · rw [if_neg hpk] at h
      exact List.mem_cons_of_mem p (ih h)

theorem alFind_of_mem_nodup {β : Type} (k : String) (t : β) :
    ∀ m : List (String × β), (m.map Prod.fst).Nodup → (k, t) ∈ m → alFind m k = some t := by
  intro m
  induction m with
  | nil => intro _ h; simp at h
  | cons p rest ih =>
    intro hnd hmem
    simp only [List.map_cons, List.nodup_cons] at hnd
    rcases List.mem_cons.mp hmem with h | h
    · rw [← h]; simp [alFind]
    · have hk : p.1 ≠ k := by
        intro hk
        exact hnd.1 (hk ▸ (List.mem_map.mpr ⟨(k, t), h, rfl⟩))
      simp only [alFind, if_neg hk]
      exact ih hnd.2 h

theorem alFind_alSet_self {β : Type} (k : String) (v : β) :
    ∀ m : List (String × β), alFind (alSet m k v) k = some v := by
  intro m
  induction m with
  | nil => simp [alSet, alFind]
  | cons p rest ih =>
    by_cases hpk : p.1 = k
    · simp [alSet, alFind, hpk]
    · simp [alSet, alFind, hpk, ih]

theorem updateDedupState_isDup (st : DedupState) (a : Alert) (ttl : Nat) :
    (updateDedupState st a ttl).2.1 =
      decide (a.ts - (alFind st.lastSeen (generateDedupKey a)).getD 0 < ttl) := by
  by_cases h : a.ts - (alFind st.lastSeen (generateDedupKey a)).getD 0 < ttl
  · simp only [updateDedupState, if_pos h]
    simp [h]
  · simp [updateDedupState, if_neg h, h]

/-! ### Helper lemmas about the situation builder -/

theorem sortByStart_pair (x y : Episode) :
    sortByStart [x, y] = if x.start ≤ y.start then [x, y] else [y, x] := by
  by_cases h : x.start ≤ y.start
  · simp [sortByStart, List.insertionSort, List.orderedInsert, startLe, h]
  · simp [sortByStart, List.insertionSort, List.orderedInsert, startLe, h]

theorem buildSituationsSorted_pair (x y : Episode) (alerts : List Alert) :
    buildSituationsSorted [x, y] alerts =
      if joinable x y then [mkSituation [x, y] alerts]
      else [mkSituation [x] alerts, mkSituation [y] alerts] := by
  have h0 : ([x, y].getD 0 defaultEpisode) = x := rfl
  have h1 : ([x, y].getD 1 defaultEpisode) = y := rfl
  cases hj : joinable x y with
  | true =>
    rw [if_pos rfl]
    simp only [buildSituationsSorted, List.length_cons, List.length_nil]
    rw [show allPairs (0 + 1 + 1) = [(0, 1)] from rfl]
    simp only [List.foldl_cons, List.foldl_nil, h0, h1, hj, if_true]
    rfl
  | false =>
    rw [if_neg (by simp [hj])]
    simp only [buildSituationsSorted, List.length_cons, List.length_nil]
    rw [show allPairs (0 + 1 + 1) = [(0, 1)] from rfl]
    simp only [List.foldl_cons, List.foldl_nil, h0, h1, hj]
    rfl

theorem jaccard_comm (a b : Finset String) : jaccard a b = jaccard b a := by
  unfold jaccard
  rw [Finset.inter_comm]
  split_ifs <;> first | rfl | tauto | ring_nf

theorem joinable_of_distinct (x y : Episode)
    (hov : ¬ (x.stop < y.start ∨ y.stop < x.start))
    (hek : x.entity_key ≠ y.entity_key) (hfp : x.fingerprint ≠ y.fingerprint) :
    joinable x y = decide ((3/10 : ℚ) < jaccard x.vendorMix.toFinset y.vendorMix.toFinset) := by
  simp [joinable, hov, hek, hfp]

theorem mkSituation_pair_entities (x y : Episode) (alerts : List Alert)
    (h : x.entity_key ≠ y.entity_key) : (mkSituation [x, y] alerts).entities = 2 := by
  simp only [mkSituation]
  rw [show ([x, y].map (·.entity_key)) = [x.entity_key, y.entity_key] from rfl]
  rw [List.dedup_cons_of_not_mem (by simp [h])]
  rfl

/-! ### Claim C6 — lead-lag similarity -/

/-- Claim C6 (amended): the per-lag similarity tracked by `corrLeadLag`
is `num/√(denA·denB)` where `denB` sums `B[i+ℓ]²` over the bins of `A`
only (NOT the spec's `⟨B,B⟩`); with that corrected quantity, the
recorded result attains the maximum over all lags `0 … ⌊L/1000⌋` with
positive denominators (and the effects fold of `scoreSituation` then
attains the maximum over all effects); if either input is empty the
result is lag 0 with score 0. -/
theorem c6_lead_lag_amended (aTs bTs : List Nat) (L : Nat) :
    (aTs = [] ∨ bTs = [] →
      corrLeadLag aTs bTs L = ⟨0, 0, 1⟩ ∧ simReal 0 1 = 0) ∧
    (∀ lag ≤ L / 1000, 0 < dotA aTs → 0 < candDB aTs bTs lag →
      simReal (candNum aTs bTs lag) (dotA aTs * candDB aTs bTs lag) ≤
        simReal (corrLeadLag aTs bTs L).num (corrLeadLag aTs bTs L).den) ∧
    (corrLeadLag aTs bTs L = ⟨0, 0, 1⟩ ∨
      ∃ lag, lag ≤ L / 1000 ∧ corrLeadLag aTs bTs L =
        ⟨lag * 1000, candNum aTs bTs lag, dotA aTs * candDB aTs bTs lag⟩ ∧
        0 < dotA aTs ∧ 0 < candDB aTs bTs lag) ∧
    (∀ (cause : Episode) (others : List Episode), ∀ ep ∈ others,
      simReal (corrLeadLag (cause.alerts.map (·.ts)) (ep.alerts.map (·.ts)) L).num
          (corrLeadLag (cause.alerts.map (·.ts)) (ep.alerts.map (·.ts)) L).den ≤
        simReal (bestLagOf cause others L).num (bestLagOf cause others L).den) := by
  refine ⟨?_, ?_, ?_, ?_⟩
  · intro h
    constructor
    · rw [corrLeadLag, if_pos h]
    · simp [simReal]
  · intro lag hlag hda hdb
    by_cases hempty : aTs = [] ∨ bTs = []
    · rcases hempty with h | h
      · rw [dotA] at hda
        simp [binSupp, h] at hda
      · exfalso
        rw [candDB] at hdb
        have : ∀ i, binCount bTs i = 0 := by
          intro i
          simp [binCount, h]
        simp only [this] at hdb
        simp at hdb
    · have hfold := corr_fold_inv aTs bTs (List.range (L / 1000 + 1)) ⟨0, 0, 1⟩ (by norm_num)
      rw [corrLeadLag, if_neg hempty]
      exact hfold.2.2.1 lag (List.mem_range.mpr (by omega)) hda hdb
  · by_cases hempty : aTs = [] ∨ bTs = []
    · left; rw [corrLeadLag, if_pos hempty]
    · have hfold := corr_fold_inv aTs bTs (List.range (L / 1000 + 1)) ⟨0, 0, 1⟩ (by norm_num)
      rw [corrLeadLag, if_neg hempty]
      rcases hfold.2.2.2 with h | ⟨lag, hlag, heq, hda, hdb⟩
      · exact Or.inl h
      · exact Or.inr ⟨lag, by
          have := List.mem_range.mp hlag
          omega, heq, hda, hdb⟩
  · intro cause others ep hep
    exact (bestLag_fold_inv cause L others ⟨0, 0, 1⟩ (by norm_num)).2.2 ep hep

/-- Claim C6 counterexample: with `A` the histogram of `[0]` and `B` of
`[0,0,0,1000,1000,1000,1000]` (bins `{0:3, 1:4}`) and a single lag 0,
the code computes similarity `3/√(1·9) = 1` (its `denomB` only sees
`B[0]² = 9`), while the spec's cosine `⟨A,B⟩/√(⟨A,A⟩·⟨B,B⟩)` is
`3/√(1·25) = 3/5`: the computed similarity does not equal the spec's. -/
theorem c6_lead_lag_cex :
    corrLeadLag [0] [0, 0, 0, 1000, 1000, 1000, 1000] 0 = ⟨0, 3, 9⟩ ∧
    simReal (corrLeadLag [0] [0, 0, 0, 1000, 1000, 1000, 1000] 0).num
      (corrLeadLag [0] [0, 0, 0, 1000, 1000, 1000, 1000] 0).den = 1 ∧
    specCosine [0] [0, 0, 0, 1000, 1000, 1000, 1000] 0 = 3/5 ∧
    simReal (corrLeadLag [0] [0, 0, 0, 1000, 1000, 1000, 1000] 0).num
        (corrLeadLag [0] [0, 0, 0, 1000, 1000, 1000, 1000] 0).den ≠
      specCosine [0] [0, 0, 0, 1000, 1000, 1000, 1000] 0 := by
  have h1 : corrLeadLag [0] [0, 0, 0, 1000, 1000, 1000, 1000] 0 = ⟨0, 3, 9⟩ := by decide
  have h2 : simReal (corrLeadLag [0] [0, 0, 0, 1000, 1000, 1000, 1000] 0).num
      (corrLeadLag [0] [0, 0, 0, 1000, 1000, 1000, 1000] 0).den = 1 := by
    rw [h1, simReal]
    rw [show ((9 : Nat) : ℝ) = 3 ^ 2 by norm_num, Real.sqrt_sq (by norm_num)]
    norm_num
  have h3 : specCosine [0] [0, 0, 0, 1000, 1000, 1000, 1000] 0 = 3/5 := by
    rw [specCosine]
    rw [show candNum [0] [0, 0, 0, 1000, 1000, 1000, 1000] 0 = 3 from by decide,
      show dotA [0] = 1 from by decide,
      show dotA [0, 0, 0, 1000, 1000, 1000, 1000] = 25 from by decide]
    rw [show ((1 : Nat) : ℝ) * ((25 : Nat) : ℝ) = 5 ^ 2 by norm_num,
      Real.sqrt_sq (by norm_num)]
    norm_num
  refine ⟨h1, h2, h3, ?_⟩
  rw [h2, h3]
  norm_num

theorem c6_lead_lag_witness :
    (5 ≤ 90000 / 1000 ∧ 0 < dotA [0, 1000] ∧ 0 < candDB [0, 1000] [5000, 6000] 5) ∧
    simReal (candNum [0, 1000] [5000, 6000] 5) (dotA [0, 1000] * candDB [0, 1000] [5000, 6000] 5) ≤
      simReal (corrLeadLag [0, 1000] [5000, 6000] 90000).num
        (corrLeadLag [0, 1000] [5000, 6000] 90000).den :=
  ⟨⟨by decide, by decide, by decide⟩,
    (c6_lead_lag_amended [0, 1000] [5000, 6000] 90000).2.1 5 (by decide) (by decide) (by decide)⟩

/-- Claim C3 (amended): the scorer's `shortestPathLen` is a depth-4
bounded BFS over the DIRECTED adjacency lists that returns unreachable
unless BOTH endpoints are present as keys of `adj`, and
`pathScore = 1/(1+d*)` over the minimum over effects (0 when
unreachable).  With `adj = {a:[b], b:[c]}` the claim's own example
yields pathScore 0 (entity `c` is not a key); adding the key `c`
(`adj = {a:[b], b:[c], c:[]}`) yields `d* = 2` and pathScore `1/3`;
and the search is directed: from `c` to `a` nothing is reachable even
in the full graph. -/
theorem c3_graph_proximity_amended :
    shortestPathLen c3adjFull "a" "c" 4 = some 2 ∧
    situationPathScore c3adjFull (mkSituation [c3EpA, c3EpC] []) = 1/3 ∧
    shortestPathLen c3adjMissing "a" "c" 4 = none ∧
    situationPathScore c3adjMissing (mkSituation [c3EpA, c3EpC] []) = 0 ∧
    shortestPathLen c3adjFull "c" "a" 4 = none := by
  refine ⟨by decide, ?_, by decide, ?_, by decide⟩
  · simp only [situationPathScore]
    rw [show sortByStart (mkSituation [c3EpA, c3EpC] []).episodes = [c3EpA, c3EpC]
      from by decide]
    rw [show ([c3EpA, c3EpC].headD defaultEpisode) = c3EpA from rfl]
    rw [show ([c3EpA, c3EpC].tail) = [c3EpC] from rfl]
    rw [show bestPathOf c3adjFull c3EpA [c3EpC] = some 2 from by decide]
    rw [pathScoreQ]
    norm_num
  · simp only [situationPathScore]
    rw [show sortByStart (mkSituation [c3EpA, c3EpC] []).episodes = [c3EpA, c3EpC]
      from by decide]
    rw [show ([c3EpA, c3EpC].headD defaultEpisode) = c3EpA from rfl]
    rw [show ([c3EpA, c3EpC].tail) = [c3EpC] from rfl]
    rw [show bestPathOf c3adjMissing c3EpA [c3EpC] = none from by decide]
    rfl

/-- Claim C3 counterexample: with the claim's own adjacency
`{a:[b], b:[c]}` and the two-episode situation on entities `a` and `c`,
the computed pathScore is 0, not the claimed `1/(1+2) = 1/3` (entity `c`
is not a key of `adj`, so the code treats it as a missing endpoint). -/
theorem c3_graph_proximity_cex :
    situationPathScore c3adjMissing (mkSituation [c3EpA, c3EpC] []) = 0 ∧
    (0 : ℚ) ≠ 1/3 := by
  constructor
  · simp only [situationPathScore]
    rw [show sortByStart (mkSituation [c3EpA, c3EpC] []).episodes = [c3EpA, c3EpC]
      from by decide]
    rw [show ([c3EpA, c3EpC].headD defaultEpisode) = c3EpA from rfl]
    rw [show ([c3EpA, c3EpC].tail) = [c3EpC] from rfl]
    rw [show bestPathOf c3adjMissing c3EpA [c3EpC] = none from by decide]
    rfl
  · norm_num

/-! ### Claim C5 — score bounds -/

/-- Claim C5 (amended): the primary-cause confidence is always at most 1,
and the composite score (hence the confidence) is non-negative whenever
the echo excess `Σ|source-mix| − |episodes|` is at most 43; for larger
source mixes the echo penalty can push the score, and therefore the
confidence, below 0 (see the counterexample). -/
theorem c5_score_bounds_amended (adj : List (String × List String)) (maxLeadMs : Nat)
    (sit : Situation) (hne : sit.episodes ≠ []) :
    confidence adj maxLeadMs sit ≤ 1 ∧
    (echoExcess sit.episodes ≤ 43 →
      0 ≤ compositeScore adj maxLeadMs sit ∧ 0 ≤ confidence adj maxLeadMs sit) := by
  constructor
  · exact min_le_left _ _
  · intro hecho
    have hch : ((1/5 : ℚ) : ℝ) ≤ ((changeProx sit : ℚ) : ℝ) := by
      exact_mod_cast changeProx_ge sit
    have hsim : 0 ≤ simReal (situationBestLag maxLeadMs sit).num
        (situationBestLag maxLeadMs sit).den := simReal_nonneg _ _
    have hpath : (0 : ℝ) ≤ ((situationPathScore adj sit : ℚ) : ℝ) := by
      have := pathScoreQ_nonneg (bestPathOf adj ((sortByStart sit.episodes).headD
        defaultEpisode) (sortByStart sit.episodes).tail)
      rw [situationPathScore]
      exact_mod_cast this
    have hlog : 0 ≤ Real.log (1 + (sit.entities : ℝ)) := by
      apply Real.log_nonneg
      have : (0 : ℝ) ≤ (sit.entities : ℝ) := by positivity
      linarith
    have hsev : ((1/4 : ℚ) : ℝ) ≤ ((sevMax sit.episodes : ℚ) : ℝ) := by
      exact_mod_cast sevMax_ge_quarter sit.episodes hne
    have hep : ((echoPenalty sit.episodes : ℚ) : ℝ) ≤ ((43/20 : ℚ) : ℝ) := by
      exact_mod_cast echoPenalty_le sit.episodes hecho
    have hcomp : 0 ≤ compositeScore adj maxLeadMs sit := by
      rw [compositeScore, flapPenaltyQ]
      push_cast at hch hsev hep ⊢
      norm_num
      nlinarith
    exact ⟨hcomp, le_min (by norm_num) hcomp⟩

/-- Claim C5 counterexample: for the 100-source single-episode situation
the echo penalty (0.05·99·0.05 per the composite weights) overwhelms
every positive term, making the composite score — and therefore the
primary-cause confidence `min(1, score)` — strictly negative, refuting
`0 ≤ score` and `0 ≤ confidence`. -/
theorem c5_score_bounds_cex :
    compositeScore [] 90000 c5Sit < 0 ∧ confidence [] 90000 c5Sit < 0 := by
  have hch : changeProx c5Sit = 1/5 := rfl
  have hbest : situationBestLag 90000 c5Sit = ⟨0, 0, 1⟩ := rfl
  have hsim : simReal (0 : Nat) (1 : Nat) = 0 := by
    simp [simReal]
  have hpath : situationPathScore [] c5Sit = 0 := rfl
  have hsev : sevMax c5Sit.episodes = 1/4 := by
    have h1 : sevMax c5Sit.episodes = max (1/4 : ℚ) 0 := rfl
    rw [h1, max_eq_left (by norm_num)]
  have hexc : echoExcess c5Sit.episodes = 99 := by
    have hlen : c5Ep.vendorMix.length = 100 := by
      simp [c5Ep, c5Mix]
    simp [echoExcess, c5Sit, hlen]
  have hecho : echoPenalty c5Sit.episodes = 99/20 := by
    rw [echoPenalty, hexc]
    rw [max_eq_right (by norm_num)]
    norm_num
  have hent : ((c5Sit.entities : ℝ)) = 1 := by norm_num [c5Sit]
  have hcomp : compositeScore [] 90000 c5Sit < 0 := by
    rw [compositeScore, hch, hbest, hpath, hsev, hecho, hent, flapPenaltyQ]
    simp only [hsim]
    rw [show (1 : ℝ) + 1 = 2 by norm_num]
    have hlog := Real.log_two_lt_d9
    push_cast
    nlinarith
  exact ⟨hcomp, lt_of_le_of_lt (min_le_right _ _) hcomp⟩

theorem c5_score_bounds_witness :
    (mkSituation [c3EpA] []).episodes ≠ [] ∧
    echoExcess (mkSituation [c3EpA] []).episodes ≤ 43 ∧
    (confidence [] 90000 (mkSituation [c3EpA] []) ≤ 1 ∧
      0 ≤ compositeScore [] 90000 (mkSituation [c3EpA] []) ∧
      0 ≤ confidence [] 90000 (mkSituation [c3EpA] [])) :=
  ⟨by decide, by decide,
    (c5_score_bounds_amended [] 90000 (mkSituation [c3EpA] []) (by decide)).1,
    ((c5_score_bounds_amended [] 90000 (mkSituation [c3EpA] []) (by decide)).2 (by decide)).1,
    ((c5_score_bounds_amended [] 90000 (mkSituation [c3EpA] []) (by decide)).2 (by decide)).2⟩

/-! ### Claim C9 — threshold determinism -/

/-- Claim C9: the emission decisions of the threshold engine are a pure
function of the rule parameters and the event sequence (the embedding
`processEvents` IS that function, so two runs coincide definitionally;
only the wall-clock creation timestamp and the random `id` of the alert
object fall outside the deterministic content).  An alert is synthesized
exactly when the pruned per-(rule,key) sequence reaches the threshold
and the cooldown has elapsed; it carries `count = |sequence|`,
`first_ts`/`last_ts` from the sequence, severity from the rule and
source `"k8s"`; afterwards `cooldown_until = now + C_r`, and the pruned
sequence is stored back in every case. -/
theorem c9_threshold_determinism (r : K8sRule) (st : EngineState) (e : K8sEvent)
    (hm : eventMatches e r = true) :
    (r.threshold ≤ (seqAfter st e r).length ∧
        ¬ e.ts < (alFind st.cooldowns (ruleKeyOf e r)).getD 0 →
      (processEvent [r] st e).generated =
        st.generated ++ [mkEmitted r (getKey e r) (seqAfter st e r)] ∧
      alFind (processEvent [r] st e).cooldowns (ruleKeyOf e r) = some (e.ts + r.cooldown)) ∧
    (¬ (r.threshold ≤ (seqAfter st e r).length ∧
        ¬ e.ts < (alFind st.cooldowns (ruleKeyOf e r)).getD 0) →
      (processEvent [r] st e).generated = st.generated ∧
      (processEvent [r] st e).cooldowns = st.cooldowns) ∧
    alFind (processEvent [r] st e).ruleStates (ruleKeyOf e r) = some (seqAfter st e r) ∧
    (mkEmitted r (getKey e r) (seqAfter st e r)).count = (seqAfter st e r).length ∧
    (mkEmitted r (getKey e r) (seqAfter st e r)).severity = r.severity ∧
    (mkEmitted r (getKey e r) (seqAfter st e r)).source = "k8s" ∧
    processEvents [r] st [e] = processEvent [r] st e := by
  have hpe : processEvent [r] st e = processRule e st r := by
    simp [processEvent]
  by_cases hcond : r.threshold ≤ (seqAfter st e r).length ∧
      ¬ e.ts < (alFind st.cooldowns (ruleKeyOf e r)).getD 0
  · have hstep : processRule e st r =
        { ruleStates := alSet st.ruleStates (ruleKeyOf e r) (seqAfter st e r)
          cooldowns := alSet st.cooldowns (ruleKeyOf e r) (e.ts + r.cooldown)
          generated := st.generated ++ [mkEmitted r (getKey e r) (seqAfter st e r)] } := by
      rw [processRule, if_pos hm]
      simp only [if_pos hcond]
    refine ⟨fun _ => ⟨?_, ?_⟩, fun h => absurd hcond h, ?_, rfl, rfl, rfl, rfl⟩
    · rw [hpe, hstep]
    · rw [hpe, hstep]
      exact alFind_alSet_self _ _ _
    · rw [hpe, hstep]
      exact alFind_alSet_self _ _ _
  · have hstep : processRule e st r =
        { st with ruleStates := alSet st.ruleStates (ruleKeyOf e r) (seqAfter st e r) } := by
      rw [processRule, if_pos hm]
      simp only [if_neg hcond]
    refine ⟨fun h => absurd h hcond, fun _ => ⟨?_, ?_⟩, ?_, rfl, rfl, rfl, rfl⟩
    · rw [hpe, hstep]
    · rw [hpe, hstep]
    · rw [hpe, hstep]
      exact alFind_alSet_self _ _ _

theorem c9_threshold_determinism_witness :
    eventMatches c9Event c9Rule = true ∧
    alFind (processEvent [c9Rule] { ruleStates := [(ruleKeyOf c9Event c9Rule,
        [800000, 850000, 900000, 950000])] } c9Event).ruleStates
      (ruleKeyOf c9Event c9Rule) =
      some (seqAfter { ruleStates := [(ruleKeyOf c9Event c9Rule,
        [800000, 850000, 900000, 950000])] } c9Event c9Rule) :=
  ⟨by decide,
    (c9_threshold_determinism c9Rule
      { ruleStates := [(ruleKeyOf c9Event c9Rule, [800000, 850000, 900000, 950000])] }
      c9Event (by decide)).2.2.1⟩

/-- Claim C1: the spec says that when the gap since `e.end` exceeds `G`
the clusterer closes `e` and replaces `episodes[key]` with a fresh
episode for the alert, so that the scenario `t, t+60000, t+300000` with
`G = 120000` yields two episodes.  The code does not: `updateEpisode`
returns `false` ("start new episode") and the message handler ignores
the flag, so after the three alerts the episode map still holds only
episode-1 (`start = 0`, `end = 60000`) and no episode for the third
alert (none with `start = 300000` or `count = 1`) exists.  The stored
episode-1 has `count = 3` with the first alert recorded twice, because
the handler runs `updateEpisode` unconditionally right after
`getOrCreateEpisode` created it. -/
theorem c1_gap_break_code_eval :
    clusterBatch [] [c1Alert 1 0, c1Alert 2 60000, c1Alert 3 300000] 120000 =
      [("svc|fp",
        { entity_key := "svc", fingerprint := "fp", vendorMix := ["k8s"],
          start := 0, stop := 60000, count := 3, ids := ["1", "2"],
          alerts := [c1Alert 1 0, c1Alert 1 0, c1Alert 2 60000], severity := "high" })] ∧
    ∀ p ∈ clusterBatch [] [c1Alert 1 0, c1Alert 2 60000, c1Alert 3 300000] 120000,
      p.2.start ≠ 300000 ∧ p.2.count ≠ 1 := by
  decide

/-! ### Claim C2 — dedup idempotence -/

/-- Claim C2 (amended): feeding the same alert twice within `dedupTtlMs`
to the dedup worker passes BOTH occurrences downstream (a duplicate is
dropped only when the accumulated flap count exceeds 3, and with equal
statuses it stays 0); the stored duplicate count reaches 2 and the flap
count stays 0 (no entry).  At-most-one-downstream holds only in the
engine-level per-batch `CorrelationEngine.deduplicateAlerts`, which
keeps just the first occurrence. -/
theorem c2_dedup_idempotence_amended (a1 a2 : Alert) (ttl now : Nat)
    (hk : generateDedupKey a1 = generateDedupKey a2)
    (hek : entityKeyOf a1 = entityKeyOf a2)
    (hke : engineDedupKey a1 = engineDedupKey a2)
    (hst : a1.status = a2.status)
    (hfirst : ttl ≤ a1.ts)
    (hdup : a2.ts - a1.ts < ttl)
    (hord : a1.ts ≤ a2.ts) :
    (dedupBatch {} [a1, a2] ttl).2 = [a1, a2] ∧
    (dedupWorker {} [a1, a2] ttl now).2 = [a1, a2] ∧
    alFind (dedupBatch {} [a1, a2] ttl).1.counts (generateDedupKey a1) = some 2 ∧
    alFind (dedupBatch {} [a1, a2] ttl).1.flapCounts (generateDedupKey a1) = none ∧
    deduplicateAlerts [a1, a2] ttl = [a1] := by
  have hnew1 : ¬ a1.ts - (alFind (DedupState.lastSeen {}) (generateDedupKey a1)).getD 0 < ttl := by
    simpa [alFind] using Nat.not_lt.mpr hfirst
  have step1 := updateDedupState_new {} a1 ttl hnew1
  have hfind2 : alFind (alSet (DedupState.lastSeen {}) (generateDedupKey a1) a1.ts)
      (generateDedupKey a2) = some a1.ts := by
    rw [← hk]; exact alFind_alSet_self _ _ _
  have hbatch : dedupBatch {} [a1, a2] ttl =
      ({ lastSeen := alSet (DedupState.lastSeen {}) (generateDedupKey a1) a1.ts
         counts := alSet (alSet (DedupState.counts {}) (generateDedupKey a1) 1)
           (generateDedupKey a2) 2
         flapCounts := DedupState.flapCounts {}
         lastToggle := alSet (alSet (DedupState.lastToggle {}) (generateDedupKey a1) a1.status)
           (generateDedupKey a2) a2.status }, [a1, a2]) := by
    have hdup2 : a2.ts - (alFind (alSet (DedupState.lastSeen {}) (generateDedupKey a1) a1.ts)
        (generateDedupKey a2)).getD 0 < ttl := by
      rw [hfind2]; simpa using hdup
    have htog2 : alFind (alSet (DedupState.lastToggle {}) (generateDedupKey a1) a1.status)
        (generateDedupKey a2) = some a2.status := by
      rw [← hk, hst]; exact alFind_alSet_self _ _ _
    have hcnt2 : alFind (alSet (DedupState.counts {}) (generateDedupKey a1) 1)
        (generateDedupKey a2) = some 1 := by
      rw [← hk]; exact alFind_alSet_self _ _ _
    have step2 := updateDedupState_dup_noflap
      ({ lastSeen := alSet (DedupState.lastSeen {}) (generateDedupKey a1) a1.ts
         counts := alSet (DedupState.counts {}) (generateDedupKey a1) 1
         flapCounts := DedupState.flapCounts {}
         lastToggle := alSet (DedupState.lastToggle {}) (generateDedupKey a1) a1.status })
      a2 ttl hdup2 (Or.inr htog2)
    simp only [dedupBatch, List.foldl_cons, List.foldl_nil]
    simp only [dedupStep, step1]
    simp only [Bool.false_eq_true, false_and, if_false, List.nil_append]
    simp only [dedupStep, step2, hcnt2]
    simp only [Option.getD_some, true_and]
    rw [if_neg]
    · rfl
    · rw [← hk]
      simp [alFind]
  refine ⟨by rw [hbatch], ?_, ?_, ?_, ?_⟩
  · have : (dedupBatch {} [a1, a2] ttl).2 = [a1, a2] := by rw [hbatch]
    simp only [dedupWorker, this]
    have hgrp : groupByEntity [a1, a2] = [(entityKeyOf a1, [a1, a2])] := by
      simp [groupByEntity, alPush, hek]
    have hsort : sortByTs [a1, a2] = [a1, a2] := by
      simp [sortByTs, List.insertionSort, List.orderedInsert, tsLe, hord]
    simp [applyRateLimiting, hgrp, hsort, rateWalk_of_short now [a1, a2] 0 (by simp)]
  · rw [hbatch]
    rw [hk]
    exact alFind_alSet_self _ _ _
  · rw [hbatch]
    rfl
  · simp only [deduplicateAlerts, List.foldl_cons, List.foldl_nil, alFind, Option.getD_none]
    have h1 : ttl ≤ a1.ts - 0 := by simpa using hfirst
    rw [if_pos h1]
    rw [← hke]
    simp only [alFind_alSet_self, Option.getD_some]
    have hnotkeep : ¬ ttl ≤ a2.ts - a1.ts := by omega
    rw [if_neg hnotkeep]
    simp

/-- Claim C2 counterexample: the dedup worker passes two alerts
downstream for the single-duplicate scenario, refuting "at most one
alert is passed downstream". -/
theorem c2_dedup_idempotence_cex :
    ¬ ((dedupWorker {} [c2Alert1, c2Alert2] 120000 240000).2.length ≤ 1) := by
  decide

/-- Claim C8: two distinct time-overlapping episodes with different
entity keys and fingerprints are joined into one situation iff the
Jaccard index of their source mixes exceeds 0.3; in particular the
`{k8s, datadog}` / `{datadog, logicmonitor}` pair (Jaccard 1/3) yields
one situation containing both, with blast-radius entities = 2. -/
theorem c8_join_by_source_mix (e1 e2 : Episode) (alerts : List Alert)
    (hov : ¬ (e1.stop < e2.start ∨ e2.stop < e1.start))
    (hek : e1.entity_key ≠ e2.entity_key)
    (hfp : e1.fingerprint ≠ e2.fingerprint) :
    (((buildSituations [e1, e2] alerts).length = 1 ↔
      (3/10 : ℚ) < jaccard e1.vendorMix.toFinset e2.vendorMix.toFinset) ∧
    ((3/10 : ℚ) < jaccard e1.vendorMix.toFinset e2.vendorMix.toFinset →
      ∃ s, buildSituations [e1, e2] alerts = [s] ∧
        (s.episodes = [e1, e2] ∨ s.episodes = [e2, e1]) ∧ s.entities = 2)) ∧
    (∃ s, buildSituations [c8Ep1, c8Ep2] [] = [s] ∧ s.episodes = [c8Ep1, c8Ep2] ∧
      s.entities = 2) := by
  have main : ∀ x y : Episode, ∀ al : List Alert,
      ¬ (x.stop < y.start ∨ y.stop < x.start) → x.entity_key ≠ y.entity_key →
      x.fingerprint ≠ y.fingerprint → x.start ≤ y.start →
      buildSituations [x, y] al =
        (if (3/10 : ℚ) < jaccard x.vendorMix.toFinset y.vendorMix.toFinset
          then [mkSituation [x, y] al]
          else [mkSituation [x] al, mkSituation [y] al]) := by
    intro x y al hov' hek' hfp' hle
    rw [buildSituations, sortByStart_pair, if_pos hle, buildSituationsSorted_pair,
      joinable_of_distinct x y hov' hek' hfp']
    by_cases hJ : (3/10 : ℚ) < jaccard x.vendorMix.toFinset y.vendorMix.toFinset
    · rw [if_pos (by simpa using hJ), if_pos hJ]
    · rw [if_neg (by simpa using hJ), if_neg hJ]
  have swap : ∀ x y : Episode, ∀ al : List Alert,
      ¬ (x.stop < y.start ∨ y.stop < x.start) → x.entity_key ≠ y.entity_key →
      x.fingerprint ≠ y.fingerprint → ¬ x.start ≤ y.start →
      buildSituations [x, y] al =
        (if (3/10 : ℚ) < jaccard x.vendorMix.toFinset y.vendorMix.toFinset
          then [mkSituation [y, x] al]
          else [mkSituation [y] al, mkSituation [x] al]) := by
    intro x y al hov' hek' hfp' hle
    rw [buildSituations, sortByStart_pair, if_neg hle, buildSituationsSorted_pair,
      joinable_of_distinct y x (fun h => hov' (Or.symm h)) hek'.symm hfp'.symm,
      jaccard_comm]
    by_cases hJ : (3/10 : ℚ) < jaccard x.vendorMix.toFinset y.vendorMix.toFinset
    · rw [if_pos (by simpa using hJ), if_pos hJ]
    · rw [if_neg (by simpa using hJ), if_neg hJ]
  have hJc : jaccard c8Ep1.vendorMix.toFinset c8Ep2.vendorMix.toFinset = 1/3 := by
    rw [jaccard, if_neg (by decide), if_neg (by decide)]
    rw [show (c8Ep1.vendorMix.toFinset ∩ c8Ep2.vendorMix.toFinset).card = 1 from by decide,
      show c8Ep1.vendorMix.toFinset.card = 2 from by decide,
      show c8Ep2.vendorMix.toFinset.card = 2 from by decide]
    norm_num
  refine ⟨?_, ?_⟩
  · by_cases hle : e1.start ≤ e2.start
    · rw [main e1 e2 alerts hov hek hfp hle]
      by_cases hJ : (3/10 : ℚ) < jaccard e1.vendorMix.toFinset e2.vendorMix.toFinset
      · refine ⟨by simp [hJ], fun _ => ⟨mkSituation [e1, e2] alerts, by simp [hJ],
          Or.inl rfl, mkSituation_pair_entities e1 e2 alerts hek⟩⟩
      · refine ⟨?_, fun h => absurd h hJ⟩
        rw [if_neg hJ]
        simp [hJ]
    · rw [swap e1 e2 alerts hov hek hfp hle]
      by_cases hJ : (3/10 : ℚ) < jaccard e1.vendorMix.toFinset e2.vendorMix.toFinset
      · refine ⟨by simp [hJ], fun _ => ⟨mkSituation [e2, e1] alerts, by simp [hJ],
          Or.inr rfl, mkSituation_pair_entities e2 e1 alerts hek.symm⟩⟩
      · refine ⟨?_, fun h => absurd h hJ⟩
        rw [if_neg hJ]
        simp [hJ]
  · have hJ : (3/10 : ℚ) < jaccard c8Ep1.vendorMix.toFinset c8Ep2.vendorMix.toFinset := by
      rw [hJc]; norm_num
    refine ⟨mkSituation [c8Ep1, c8Ep2] [], ?_, rfl,
      mkSituation_pair_entities c8Ep1 c8Ep2 [] (by decide)⟩
    rw [main c8Ep1 c8Ep2 [] (by decide) (by decide) (by decide) (by decide), if_pos hJ]

theorem c8_join_witness :
    ¬ (c8Ep1.stop < c8Ep2.start ∨ c8Ep2.stop < c8Ep1.start) ∧
    ((buildSituations [c8Ep1, c8Ep2] []).length = 1 ↔
      (3/10 : ℚ) < jaccard c8Ep1.vendorMix.toFinset c8Ep2.vendorMix.toFinset) :=
  ⟨by decide,
    (c8_join_by_source_mix c8Ep1 c8Ep2 [] (by decide) (by decide) (by decide)).1.1⟩

/-- Claim C4 (amended): for a duplicate alert the dedup worker increments
the flap count exactly when a stored last status exists and differs, and
drops the alert iff the freshly updated flap count strictly exceeds 3.
Consequently the four-alert scenario (statuses F,R,F,R) passes ALL four
alerts (the fourth reaches flapCount 3, which is not `> 3`); only a
fifth toggle is dropped, as the five-alert run shows. -/
theorem c4_flap_drop_amended :
    (∀ (st : DedupState) (out : List Alert) (a : Alert) (ttl : Nat),
      a.ts - (alFind st.lastSeen (generateDedupKey a)).getD 0 < ttl →
      ((alFind st.lastToggle (generateDedupKey a) = none ∨
          alFind st.lastToggle (generateDedupKey a) = some a.status →
          (updateDedupState st a ttl).1.flapCounts = st.flapCounts) ∧
        (∀ s, alFind st.lastToggle (generateDedupKey a) = some s → s ≠ a.status →
          (alFind (updateDedupState st a ttl).1.flapCounts (generateDedupKey a)).getD 0 =
            (alFind st.flapCounts (generateDedupKey a)).getD 0 + 1) ∧
        ((dedupStep ttl (st, out) a).2 = out ↔
          (alFind (updateDedupState st a ttl).1.flapCounts (generateDedupKey a)).getD 0 > 3))) ∧
    (dedupWorker {} [c4Alert 0 .firing, c4Alert 1 .resolved, c4Alert 2 .firing,
        c4Alert 3 .resolved, c4Alert 4 .firing] 120000 205000).2 =
      [c4Alert 0 .firing, c4Alert 1 .resolved, c4Alert 2 .firing, c4Alert 3 .resolved] := by
  constructor
  · intro st out a ttl hdup
    refine ⟨?_, ?_, ?_⟩
    · intro htog
      rw [updateDedupState_dup_noflap st a ttl hdup htog]
    · intro s htog hne
      rw [updateDedupState_dup_flap st a ttl s hdup htog hne]
      simp only
      rw [alFind_alSet_self]
      rfl
    · have hisdup : (updateDedupState st a ttl).2.1 = true := by
        rw [updateDedupState_isDup]
        simpa using hdup
      simp only [dedupStep, hisdup, true_and]
      by_cases hflap : (alFind (updateDedupState st a ttl).1.flapCounts
          (generateDedupKey a)).getD 0 > 3
      · simp [hflap]
      · simp only [hflap, if_false, if_neg hflap]
        constructor
        · intro h
          exact absurd (congrArg List.length h) (by simp)
        · intro h
          exact h.elim
  · decide

/-- Claim C4 counterexample: in the four-alert scenario (statuses
F,R,F,R, threshold 3) the code passes all four alerts downstream — the
fourth is NOT dropped, refuting the claimed expected output. -/
theorem c4_flap_drop_cex :
    (dedupWorker {} [c4Alert 0 .firing, c4Alert 1 .resolved, c4Alert 2 .firing,
        c4Alert 3 .resolved] 120000 204000).2 =
      [c4Alert 0 .firing, c4Alert 1 .resolved, c4Alert 2 .firing, c4Alert 3 .resolved] ∧
    ¬ ((dedupWorker {} [c4Alert 0 .firing, c4Alert 1 .resolved, c4Alert 2 .firing,
        c4Alert 3 .resolved] 120000 204000).2 =
      [c4Alert 0 .firing, c4Alert 1 .resolved, c4Alert 2 .firing]) := by
  decide

theorem c4_flap_drop_witness :
    (c4Alert 1 .resolved).ts -
        (alFind (dedupBatch {} [c4Alert 0 .firing] 120000).1.lastSeen
          (generateDedupKey (c4Alert 1 .resolved))).getD 0 < 120000 ∧
    ((dedupStep 120000 ((dedupBatch {} [c4Alert 0 .firing] 120000).1, [c4Alert 0 .firing])
        (c4Alert 1 .resolved)).2 = [c4Alert 0 .firing] ↔
      (alFind (updateDedupState (dedupBatch {} [c4Alert 0 .firing] 120000).1
          (c4Alert 1 .resolved) 120000).1.flapCounts
        (generateDedupKey (c4Alert 1 .resolved))).getD 0 > 3) :=
  ⟨by decide,
    (c4_flap_drop_amended.1 (dedupBatch {} [c4Alert 0 .firing] 120000).1 [c4Alert 0 .firing]
      (c4Alert 1 .resolved) 120000 (by decide)).2.2⟩

/-! ### Claim C7 — dedup-stage ordering -/

/-- Claim C7 (amended): `applyRateLimiting` regroups the batch by entity
key (first-appearance order) and sorts each group by timestamp, so the
output is the concatenation of the per-entity rate-limited, ts-sorted
groups; within each entity the retained alerts are in nondecreasing
timestamp order, and every retained alert comes from the input batch —
but the input batch's relative order across entities is NOT preserved. -/
theorem c7_ordering_amended (now : Nat) (batch : List Alert) :
    applyRateLimiting now batch =
      (groupByEntity batch).flatMap (fun g => rateWalk now 0 (sortByTs g.2)) ∧
    (∀ p ∈ groupByEntity batch, List.Pairwise tsLe (rateWalk now 0 (sortByTs p.2))) ∧
    (∀ a ∈ applyRateLimiting now batch, a ∈ batch) := by
  refine ⟨applyRateLimiting_eq_flatMap now batch, ?_, applyRateLimiting_mem now batch⟩
  intro p _
  exact ((List.sorted_insertionSort tsLe p.2).sublist (rateWalk_sublist now (sortByTs p.2) 0))

/-- Claim C7 counterexample: every alert of the batch
`[B1@50(e2), A1@60(e1), B2@70(e2)]` is retained, yet the output
`[B1, B2, A1]` is not the input (not even a subsequence of it), so the
relative input order is not preserved across entities. -/
theorem c7_ordering_cex :
    applyRateLimiting 100 [c7AlertB1, c7AlertA1, c7AlertB2] =
      [c7AlertB1, c7AlertB2, c7AlertA1] ∧
    (applyRateLimiting 100 [c7AlertB1, c7AlertA1, c7AlertB2]).Perm
      [c7AlertB1, c7AlertA1, c7AlertB2] ∧
    ¬ (applyRateLimiting 100 [c7AlertB1, c7AlertA1, c7AlertB2]).Sublist
      [c7AlertB1, c7AlertA1, c7AlertB2] := by
  refine ⟨by decide, by decide, ?_⟩
  intro h
  exact absurd (h.eq_of_length (by decide)) (by decide)

theorem c7_ordering_witness :
    ("e2", [c7AlertB1, c7AlertB2]) ∈ groupByEntity [c7AlertB1, c7AlertA1, c7AlertB2] ∧
    List.Pairwise tsLe (rateWalk 100 0 (sortByTs [c7AlertB1, c7AlertB2])) :=
  ⟨by decide,
    (c7_ordering_amended 100 [c7AlertB1, c7AlertA1, c7AlertB2]).2.1
      ("e2", [c7AlertB1, c7AlertB2]) (by decide)⟩

/-! ### Claim C10 — new alerts always pass; flap count survives re-entry -/

/-- Claim C10: an alert classified as new (key absent or last seen at
least `ttl` earlier) is always passed downstream, whatever the stored
flap count, and the new branch leaves the `flapCounts` map untouched (no
reset on re-entry); a key's flap entry disappears only through garbage
collection, exactly when its `lastSeen` is more than 10 minutes old. -/
theorem c10_new_pass_flap_persistence (st : DedupState) (out : List Alert) (a : Alert)
    (ttl now : Nat) (k : String) (t : Nat) :
    (¬ a.ts - (alFind st.lastSeen (generateDedupKey a)).getD 0 < ttl →
      (dedupStep ttl (st, out) a).2 = out ++ [a] ∧
      (dedupStep ttl (st, out) a).1.flapCounts = st.flapCounts) ∧
    ((st.lastSeen.map Prod.fst).Nodup → alFind st.lastSeen k = some t →
      (600000 < now - t → alFind (garbageCollect now st).flapCounts k = none) ∧
      (¬ 600000 < now - t →
        alFind (garbageCollect now st).flapCounts k = alFind st.flapCounts k)) := by
  constructor
  · intro hnew
    rw [dedupStep, updateDedupState_new st a ttl hnew]
    constructor
    · simp
    · rfl
  · intro hnd hfound
    have hmem : (k, t) ∈ st.lastSeen := alFind_mem k t st.lastSeen hfound
    have hiff : (k ∈ (st.lastSeen.filter
          (fun p => decide (600000 < now - p.2))).map Prod.fst) ↔ 600000 < now - t := by
      constructor
      · intro hin
        rcases List.mem_map.mp hin with ⟨p, hp, hpk⟩
        rcases List.mem_filter.mp hp with ⟨hpmem, hpcond⟩
        have : alFind st.lastSeen k = some p.2 := by
          rw [← hpk]
          exact alFind_of_mem_nodup p.1 p.2 st.lastSeen hnd (by simpa using hpmem)
        rw [hfound] at this
        simp only [Option.some_inj] at this
        rw [this]
        simpa using hpcond
      · intro hcond
        exact List.mem_map.mpr ⟨(k, t),
          List.mem_filter.mpr ⟨hmem, by simpa using hcond⟩, rfl⟩
    constructor
    · intro hcond
      rw [garbageCollect]
      simp only
      have hc : ¬ ((fun key => decide
          (key ∉ (st.lastSeen.filter (fun p => decide (600000 < now - p.2))).map Prod.fst)) k
          = true) := by
        simp only [decide_eq_true_eq]
        exact fun hnotin => hnotin (hiff.mpr hcond)
      exact (alFind_filter_key (fun key => decide
        (key ∉ (st.lastSeen.filter (fun p => decide (600000 < now - p.2))).map Prod.fst))
        k st.flapCounts).trans (if_neg hc)
    · intro hcond
      rw [garbageCollect]
      simp only
      have hc : ((fun key => decide
          (key ∉ (st.lastSeen.filter (fun p => decide (600000 < now - p.2))).map Prod.fst)) k
          = true) := by
        simp only [decide_eq_true_eq]
        exact fun hin => hcond (hiff.mp hin)
      exact (alFind_filter_key (fun key => decide
        (key ∉ (st.lastSeen.filter (fun p => decide (600000 < now - p.2))).map Prod.fst))
        k st.flapCounts).trans (if_pos hc)

theorem c10_witness :
    (¬ (c2Alert1.ts - (alFind (DedupState.lastSeen
        { flapCounts := [(generateDedupKey c2Alert1, 7)] }) (generateDedupKey c2Alert1)).getD 0
        < 120000)) ∧
    (dedupStep 120000 ({ flapCounts := [(generateDedupKey c2Alert1, 7)] }, []) c2Alert1).2 =
      [] ++ [c2Alert1] ∧
    (dedupStep 120000 ({ flapCounts := [(generateDedupKey c2Alert1, 7)] }, []) c2Alert1).1.flapCounts =
      DedupState.flapCounts { flapCounts := [(generateDedupKey c2Alert1, 7)] } :=
  ⟨by decide,
    ((c10_new_pass_flap_persistence { flapCounts := [(generateDedupKey c2Alert1, 7)] } []
      c2Alert1 120000 0 "" 0).1 (by decide)).1,
    ((c10_new_pass_flap_persistence { flapCounts := [(generateDedupKey c2Alert1, 7)] } []
      c2Alert1 120000 0 "" 0).1 (by decide)).2⟩

theorem c2_dedup_idempotence_witness :
    generateDedupKey c2Alert1 = generateDedupKey c2Alert2 ∧
    ((dedupBatch {} [c2Alert1, c2Alert2] 120000).2 = [c2Alert1, c2Alert2] ∧
      (dedupWorker {} [c2Alert1, c2Alert2] 120000 240000).2 = [c2Alert1, c2Alert2] ∧
      alFind (dedupBatch {} [c2Alert1, c2Alert2] 120000).1.counts (generateDedupKey c2Alert1) =
        some 2 ∧
      alFind (dedupBatch {} [c2Alert1, c2Alert2] 120000).1.flapCounts
        (generateDedupKey c2Alert1) = none ∧
      deduplicateAlerts [c2Alert1, c2Alert2] 120000 = [c2Alert1]) :=
  ⟨by decide,
    c2_dedup_idempotence_amended c2Alert1 c2Alert2 120000 240000 (by decide) (by decide)
      (by decide) (by decide) (by decide) (by decide) (by decide)⟩

end AnomalyDetection
